import Mathlib

/-!
# mlox: the tree-walking evaluator (`interpreter/interpreter.go`)

A shallow embedding of the evaluator of `github.com/youngfr/mlox`.

* Go's `any` holding a runtime value becomes the inductive type `Value`.
* `float64` arithmetic is a primitive of the Go runtime; it is taken as the
  parameter `Host F` (`F` is the carrier of `float64`), together with the wall
  clock read by the two native functions.  `ieeeHost` is the Go runtime itself:
  `Float64` is the IEEE 754 binary64 format with its arithmetic and comparison.
* The interpreter is a state passing function: `Interpreter` is the Go struct
  (`env` is the pointer `i.env`) together with the heap the pointers point into
  and the lines written to standard output.
* A Go `panic` is the outcome `Res.panic`; evaluation is bounded by a fuel
  counter and `Res.timeout` is the outcome of running out of it.
-/

namespace Mlox

/-- The wall clock as `time.Now()` reports it: the calendar date and the time
of day.  `month` is the English month name (`time.Month.String()`). -/
structure WallClock where
  year : Nat
  month : String
  day : Nat
  hour : Nat
  min : Nat
  sec : Nat

/-- The Go runtime facilities the interpreter relies on: IEEE `float64`
arithmetic and comparison on the carrier `F`, the text `fmt.Println` prints for
a `float64`, and the wall clock (`now k` is what the `k`-th call of
`time.Now()` returns). -/
class Host (F : Type) where
  add : F → F → F
  sub : F → F → F
  mul : F → F → F
  div : F → F → F
  neg : F → F
  eq : F → F → Bool
  lt : F → F → Bool
  le : F → F → Bool
  gt : F → F → Bool
  ge : F → F → Bool
  fmt : F → String
  now : Nat → WallClock

/-- The dynamic content of a Go `any` holding a Lox runtime value: the nil
interface, a `bool`, a `float64`, a `string`, the pointer `*date` or `*clock`
registered in `globals`, or a pointer `*LoxFunction` (an address in the heap
of function objects). -/
inductive Value (F : Type) where
  | nil : Value F
  | bool (b : Bool) : Value F
  | num (f : F) : Value F
  | str (s : String) : Value F
  | date : Value F
  | clock : Value F
  | fn (ptr : Nat) : Value F

variable {F : Type}

/-- Go's `a == nil` on an interface value. -/
def Value.isNil : Value F → Bool
  | .nil => true
  | _ => false

/-- Go's `a == b` on two interface values: the dynamic types are identical and
the dynamic values are equal (`float64` by IEEE comparison, pointers by
address); two nil interfaces are equal. -/
def Value.ifaceEq [Host F] : Value F → Value F → Bool
  | .nil, .nil => true
  | .bool a, .bool b => a == b
  | .num a, .num b => Host.eq a b
  | .str a, .str b => a == b
  | .date, .date => true
  | .clock, .clock => true
  | .fn p, .fn q => p == q
  | _, _ => false

/-- Source: `isTruthy` (interpreter.go:101-109). -/
def isTruthy (a : Value F) : Bool :=
  if a.isNil then false
  else match a with
    | .bool b => b
    | _ => true

/-- Source: `isEqual` (interpreter.go:199-207). -/
def isEqual [Host F] (a b : Value F) : Bool :=
  if a.isNil && b.isNil then true
  else if a.isNil then false
  else a.ifaceEq b

/-- The kinds of runtime value the specification distinguishes. -/
inductive Kind where
  | nil | boolean | number | string | callable
  deriving DecidableEq, Repr

/-- The kind of a runtime value, in the specification's words: `Number`,
`String`, `Boolean`, `Nil`, `Callable`. -/
def Value.kind : Value F → Kind
  | .nil => .nil
  | .bool _ => .boolean
  | .num _ => .number
  | .str _ => .string
  | .date => .callable
  | .clock => .callable
  | .fn _ => .callable

/-- Go's `x.(float64)`. -/
def Value.asFloat64 : Value F → Option F
  | .num f => some f
  | _ => none

/-- Go's `x.(string)`. -/
def Value.asString : Value F → Option String
  | .str s => some s
  | _ => none

/-- Modelled from the spec: the token types of package `token` (absent from
the sources) that the evaluator switches on, and `AND`, the other operator of
a logical expression. -/
inductive TokenType where
  | ADD | SUB | MUL | DIV | GTR | GEQ | LSS | LEQ | EQL | NEQ | NOT | AND | OR
  deriving DecidableEq, Repr

/-- Modelled from the spec: the expression nodes of package `parser` (absent
from the sources), with the fields the visitor methods read. -/
inductive Expr (F : Type) where
  | Literal (value : Value F) : Expr F
  | Unary (operator : TokenType) (ropreand : Expr F) : Expr F
  | Binary (lopreand : Expr F) (operator : TokenType) (ropreand : Expr F) : Expr F
  | Group (expression : Expr F) : Expr F
  | Variable (name : String) : Expr F
  | Assign (name : String) (value : Expr F) : Expr F
  | Logical (lopreand : Expr F) (operator : TokenType) (ropreand : Expr F) : Expr F
  | Call (callee : Expr F) (arguments : List (Expr F)) : Expr F

/-- Modelled from the spec: the statement nodes of package `parser` (absent
from the sources).  An absent initializer, else branch or return value is the
Go nil, here `none`. -/
inductive Stmt (F : Type) where
  | Expression (exprStmtExpr : Expr F) : Stmt F
  | Print (expression : Expr F) : Stmt F
  | Var (name : String) (initializer : Option (Expr F)) : Stmt F
  | Block (statements : List (Stmt F)) : Stmt F
  | If (condition : Expr F) (thenBranch : Stmt F) (elseBranch : Option (Stmt F)) : Stmt F
  | While (condition : Expr F) (loopBody : Stmt F) : Stmt F
  | Function (name : String) (params : List String) (body : List (Stmt F)) : Stmt F
  | Return (value : Option (Expr F)) : Stmt F

/-- Modelled from the spec: one scope (`environment`, absent from the
sources): a mapping from names to values and a reference to the enclosing
scope, none for the outermost one. -/
structure environment (F : Type) where
  values : List (String × Value F)
  enclosing : Option Nat

/-- Modelled from the spec: a user function (`LoxFunction`, absent from the
sources): the declaration it was built from and the captured scope. -/
structure LoxFunction (F : Type) where
  name : String
  params : List String
  body : List (Stmt F)
  closure : Nat

/-- Source: `Interpreter` (interpreter.go:54-56).  `env` is the pointer
`i.env`; `envs` and `funs` are the heaps of scopes and of function objects
that pointers are addresses in; `out` holds the lines written to standard
output; `clockReads` counts the calls of `time.Now()`. -/
structure Interpreter (F : Type) where
  env : Nat
  envs : List (environment F)
  funs : List (LoxFunction F)
  out : List String
  clockReads : Nat

/-- Source: `Return` (interpreter.go:330-332) and the other values the
evaluator panics with: a `string`, or (modelled from the spec) the
`UndefinedVariable` failure of the environment. -/
inductive Panic (F : Type) where
  | str (msg : String) : Panic F
  | Return (returnValue : Value F) : Panic F
  | undefinedVariable (name : String) : Panic F

/-- The outcome of running a piece of the interpreter: it returns `a` and
leaves the interpreter in state `i`; it panics with `p`, the interpreter being
in state `i` when the panic leaves; or the model has no outcome (the fuel ran
out, or a pointer that no reachable state holds was followed). -/
inductive Res (F : Type) (α : Type) where
  | ok (a : α) (i : Interpreter F) : Res F α
  | panic (p : Panic F) (i : Interpreter F) : Res F α
  | timeout : Res F α

/-- Sequencing: run `k` on the result of `r` unless `r` panicked. -/
def Res.bind {α β : Type} (r : Res F α) (k : α → Interpreter F → Res F β) : Res F β :=
  match r with
  | .ok a i => k a i
  | .panic p i => .panic p i
  | .timeout => .timeout

/-- A Go map assignment `m[k] = v` on an association list with unique keys. -/
def mapSet {V : Type} : List (String × V) → String → V → List (String × V)
  | [], k, v => [(k, v)]
  | (k', v') :: rest, k, v =>
    if k' = k then (k, v) :: rest else (k', v') :: mapSet rest k v

/-- Modelled from the spec: `NewEnvironment(enclosing)`, a fresh empty scope;
returns its address. -/
def NewEnvironment (enclosing : Option Nat) (i : Interpreter F) : Nat × Interpreter F :=
  (i.envs.length, { i with envs := i.envs ++ [{ values := [], enclosing := enclosing }] })

/-- Modelled from the spec: `define(name, value)` binds `name` in the scope at
`ptr` only, overwriting a binding of that scope. -/
def environment_def (ptr : Nat) (name : String) (value : Value F) (i : Interpreter F) :
    Interpreter F :=
  match i.envs[ptr]? with
  | some e => { i with envs := i.envs.set ptr { e with values := mapSet e.values name value } }
  | none => i

/-- The result of walking the chain of scopes for a name. -/
inductive Resolved where
  | found (ptr : Nat)
  | undefined
  | stuck
  deriving DecidableEq, Repr

/-- Modelled from the spec: the walk `get` and `assign` share: start at the
scope at `ptr` and follow the parent links outward to the first scope that
holds `name`. -/
def resolve (envs : List (environment F)) (name : String) : Nat → Nat → Resolved
  | 0, _ => .stuck
  | fuel + 1, ptr =>
    match envs[ptr]? with
    | none => .stuck
    | some e =>
      if (e.values.lookup name).isSome then .found ptr
      else match e.enclosing with
        | none => .undefined
        | some parent => resolve envs name fuel parent

/-- Modelled from the spec: `get(name)` returns the first match on the chain
and fails with `UndefinedVariable` when no scope of the chain holds `name`. -/
def environment_get (ptr : Nat) (name : String) (i : Interpreter F) : Res F (Value F) :=
  match resolve i.envs name i.envs.length ptr with
  | .found p =>
    match i.envs[p]? with
    | some e =>
      match e.values.lookup name with
      | some v => .ok v i
      | none => .timeout
    | none => .timeout
  | .undefined => .panic (.undefinedVariable name) i
  | .stuck => .timeout

/-- Modelled from the spec: `assign(name, value)` overwrites the existing
binding in the scope that owns it, creates none, and fails with
`UndefinedVariable` when no scope of the chain owns `name`. -/
def environment_asg (ptr : Nat) (name : String) (value : Value F) (i : Interpreter F) :
    Res F Unit :=
  match resolve i.envs name i.envs.length ptr with
  | .found p => .ok () (environment_def p name value i)
  | .undefined => .panic (.undefinedVariable name) i
  | .stuck => .timeout

/-- Go's `strconv.Itoa` on a non-negative `int`. -/
def Itoa (n : Nat) : String := Nat.repr n

/-- Pad `s` on the left with the character `c` up to `width` characters, as
the width of a `fmt` verb does. -/
def padLeft (c : Char) (width : Nat) (s : String) : String :=
  String.mk (List.replicate (width - s.length) c) ++ s

/-- Source: `(*date).arity` (interpreter.go:24-26). -/
def date_arity : Nat := 0

/-- Source: `(*date).call` (interpreter.go:28-31):
`fmt.Sprintf("%4d-%03s-%02d", year, month.String()[:3], day)`. -/
def date_call [Host F] (i : Interpreter F) : Res F (Value F) :=
  let t := Host.now F i.clockReads
  .ok (.str (padLeft ' ' 4 (Itoa t.year) ++ "-" ++ padLeft '0' 3 (t.month.take 3) ++ "-" ++
      padLeft '0' 2 (Itoa t.day)))
    { i with clockReads := i.clockReads + 1 }

/-- Source: `(*clock).arity` (interpreter.go:41-43). -/
def clock_arity : Nat := 0

/-- Source: `(*clock).call` (interpreter.go:45-48):
`fmt.Sprintf("%02d:%02d:%02d", hour, min, sec)`. -/
def clock_call [Host F] (i : Interpreter F) : Res F (Value F) :=
  let t := Host.now F i.clockReads
  .ok (.str (padLeft '0' 2 (Itoa t.hour) ++ ":" ++ padLeft '0' 2 (Itoa t.min) ++ ":" ++
      padLeft '0' 2 (Itoa t.sec)))
    { i with clockReads := i.clockReads + 1 }

/-- Source: `globals` and `init` (interpreter.go:13-18) and `NewInterpreter`
(interpreter.go:58-62): the global scope, at address 0, binds `date` and
`clock`, and is the current scope. -/
def NewInterpreter : Interpreter F :=
  { env := 0
    envs := [{ values := [("date", .date), ("clock", .clock)], enclosing := none }]
    funs := []
    out := []
    clockReads := 0 }

/-- Modelled from the spec: `NewLoxFunction(declaration, closure)`, a fresh
function object capturing the scope at `closure`; returns its address. -/
def NewLoxFunction (name : String) (params : List String) (body : List (Stmt F))
    (closure : Nat) (i : Interpreter F) : Nat × Interpreter F :=
  (i.funs.length,
    { i with funs := i.funs ++ [{ name := name, params := params, body := body,
                                  closure := closure }] })

/-- Go's `callee.(LoxCallable)`: the dynamic types that implement the
interface are `*date`, `*clock` and `*LoxFunction`. -/
def Value.isLoxCallable : Value F → Bool
  | .date => true
  | .clock => true
  | .fn _ => true
  | _ => false

/-- The method `arity()` of a `LoxCallable` (for a `*LoxFunction`, modelled
from the spec: the number of parameters).  `none` when the value is no
callable or the pointer is not an address of the heap. -/
def LoxCallable_arity (i : Interpreter F) : Value F → Option Nat
  | .date => some date_arity
  | .clock => some clock_arity
  | .fn ptr => (i.funs[ptr]?).map fun f => f.params.length
  | _ => none

/-- Go's `fmt.Println(v)` for a runtime value: the line it writes.  The text
for a `*LoxFunction` is modelled from the spec (a descriptive tag). -/
def Println [Host F] (i : Interpreter F) : Value F → String
  | .nil => "<nil>"
  | .bool b => if b then "true" else "false"
  | .num f => Host.fmt f
  | .str s => s
  | .date => "<native fn date>"
  | .clock => "<native fn clock>"
  | .fn ptr =>
    match i.funs[ptr]? with
    | some f => "<fn " ++ f.name ++ ">"
    | none => "<fn>"

/-- The type of `i.eval`, as the visitor methods call it. -/
abbrev Eval (F : Type) := Expr F → Interpreter F → Res F (Value F)

/-- The type of `i.exec`, as the visitor methods call it. -/
abbrev Exec (F : Type) := Stmt F → Interpreter F → Res F Unit

/-- Source: `VisitorLiteralExpr` (interpreter.go:80-84). -/
def VisitorLiteralExpr (value : Value F) (i : Interpreter F) : Res F (Value F) :=
  .ok value i

/-- Source: `VisitorUnaryExpr` (interpreter.go:86-98). -/
def VisitorUnaryExpr [Host F] (eval : Eval F) (operator : TokenType) (ropreand : Expr F)
    (i : Interpreter F) : Res F (Value F) :=
  (eval ropreand i).bind fun ropreand i =>
    match operator with
    | .SUB =>
      match ropreand.asFloat64 with
      | some f => .ok (.num (Host.neg f)) i
      | none => .ok .nil i
    | .NOT => .ok (.bool (!isTruthy ropreand)) i
    | _ => .ok .nil i

/-- The shape shared by the cases `-`, `*`, `/` of `VisitorBinaryExpr`: the
result for two `float64`, else execution reaches the final `return nil`. -/
def arith (op : F → F → F) (lopreand roperand : Value F) : Value F :=
  match lopreand.asFloat64, roperand.asFloat64 with
  | some lf, some rf => .num (op lf rf)
  | _, _ => .nil

/-- The shape shared by the cases `>`, `>=`, `<`, `<=` of `VisitorBinaryExpr`:
the result for two `float64`, else the result for two `string`, else
execution reaches the final `return nil`. -/
def compare (opF : F → F → Bool) (opS : String → String → Bool)
    (lopreand roperand : Value F) : Value F :=
  match lopreand.asFloat64, roperand.asFloat64 with
  | some lf, some rf => .bool (opF lf rf)
  | _, _ =>
    match lopreand.asString, roperand.asString with
    | some ls, some rs => .bool (opS ls rs)
    | _, _ => .nil

/-- Source: `VisitorBinaryExpr` (interpreter.go:113-197). -/
def VisitorBinaryExpr [Host F] (eval : Eval F) (lopreand : Expr F) (operator : TokenType)
    (ropreand : Expr F) (i : Interpreter F) : Res F (Value F) :=
  (eval lopreand i).bind fun lopreand i =>
  (eval ropreand i).bind fun roperand i =>
    match operator with
    | .ADD =>
      match lopreand.asFloat64, roperand.asFloat64 with
      | some lf, some rf => .ok (.num (Host.add lf rf)) i
      | _, _ =>
        match lopreand.asString, roperand.asString with
        | some ls, some rs => .ok (.str (ls ++ rs)) i
        | _, _ =>
          .panic (.str "the binary operator '+' can only be used for numbers or strings") i
    | .SUB => .ok (arith Host.sub lopreand roperand) i
    | .MUL => .ok (arith Host.mul lopreand roperand) i
    | .DIV => .ok (arith Host.div lopreand roperand) i
    | .GTR => .ok (compare Host.gt (fun ls rs => decide (rs < ls)) lopreand roperand) i
    | .GEQ => .ok (compare Host.ge (fun ls rs => decide (rs ≤ ls)) lopreand roperand) i
    | .LSS => .ok (compare Host.lt (fun ls rs => decide (ls < rs)) lopreand roperand) i
    | .LEQ => .ok (compare Host.le (fun ls rs => decide (ls ≤ rs)) lopreand roperand) i
    | .EQL => .ok (.bool (isEqual lopreand roperand)) i
    | .NEQ => .ok (.bool (!isEqual lopreand roperand)) i
    | _ => .ok .nil i

/-- Source: `VisitorGroupExpr` (interpreter.go:209-212). -/
def VisitorGroupExpr (eval : Eval F) (expression : Expr F) (i : Interpreter F) :
    Res F (Value F) :=
  eval expression i

/-- Source: `VisitorVariableExpr` (interpreter.go:214-216). -/
def VisitorVariableExpr (name : String) (i : Interpreter F) : Res F (Value F) :=
  environment_get i.env name i

/-- Source: `VisitorAssignExpr` (interpreter.go:218-222). -/
def VisitorAssignExpr (eval : Eval F) (name : String) (value : Expr F) (i : Interpreter F) :
    Res F (Value F) :=
  (eval value i).bind fun value i =>
  (environment_asg i.env name value i).bind fun _ i =>
    .ok value i

/-- Source: `VisitorLogicalExpr` (interpreter.go:224-237). -/
def VisitorLogicalExpr (eval : Eval F) (lopreand : Expr F) (operator : TokenType)
    (ropreand : Expr F) (i : Interpreter F) : Res F (Value F) :=
  (eval lopreand i).bind fun lopreand i =>
    if operator = .OR then
      if isTruthy lopreand then .ok lopreand i else eval ropreand i
    else
      if !isTruthy lopreand then .ok lopreand i else eval ropreand i

/-- The loop of `VisitorCallExpr` (interpreter.go:241-244): evaluate the
argument expressions in order, appending each value to `arguments`. -/
def evalArguments (eval : Eval F) :
    List (Expr F) → List (Value F) → Interpreter F → Res F (List (Value F))
  | [], arguments, i => .ok arguments i
  | argument :: rest, arguments, i =>
    (eval argument i).bind fun v i => evalArguments eval rest (arguments ++ [v]) i

/-- The loop of `execBlock` and of `Interpret`: execute the statements in
order. -/
def execStatements (exec : Exec F) : List (Stmt F) → Interpreter F → Res F Unit
  | [], i => .ok () i
  | statement :: rest, i =>
    (exec statement i).bind fun _ i => execStatements exec rest i

/-- Source: `execBlock` (interpreter.go:297-306).  The deferred function
restores `i.env` when the block returns and when a panic leaves it. -/
def execBlock (exec : Exec F) (statements : List (Stmt F)) (env : Nat) (i : Interpreter F) :
    Res F Unit :=
  let prevEnv := i.env
  match execStatements exec statements { i with env := env } with
  | .ok _ j => .ok () { j with env := prevEnv }
  | .panic p j => .panic p { j with env := prevEnv }
  | .timeout => .timeout

/-- The loop of `(*LoxFunction).call` binding each parameter to its
argument. -/
def bindParams (env : Nat) : List String → List (Value F) → Interpreter F → Interpreter F
  | param :: params, argument :: arguments, i =>
    bindParams env params arguments (environment_def env param argument i)
  | _, _, i => i

/-- Modelled from the spec: `(*LoxFunction).call` (absent from the sources):
a new scope whose parent is the captured scope, the parameters bound in it,
the body executed against it; a `Return` signal is caught here and its value
is the result, normal completion gives nil, any other panic goes on. -/
def LoxFunction_call (exec : Exec F) (f : LoxFunction F) (arguments : List (Value F))
    (i : Interpreter F) : Res F (Value F) :=
  let (env, i) := NewEnvironment (some f.closure) i
  match execBlock exec f.body env (bindParams env f.params arguments i) with
  | .ok _ j => .ok .nil j
  | .panic (.Return v) j => .ok v j
  | .panic p j => .panic p j
  | .timeout => .timeout

/-- The method `call(interpreter, arguments)` of a `LoxCallable`, dispatched
on the dynamic type. -/
def LoxCallable_call [Host F] (exec : Exec F) (function : Value F)
    (arguments : List (Value F)) (i : Interpreter F) : Res F (Value F) :=
  match function with
  | .date => date_call i
  | .clock => clock_call i
  | .fn ptr =>
    match i.funs[ptr]? with
    | some f => LoxFunction_call exec f arguments i
    | none => .timeout
  | _ => .timeout

/-- Source: `VisitorCallExpr` (interpreter.go:239-255). -/
def VisitorCallExpr [Host F] (eval : Eval F) (exec : Exec F) (callee : Expr F)
    (arguments : List (Expr F)) (i : Interpreter F) : Res F (Value F) :=
  (eval callee i).bind fun callee i =>
  (evalArguments eval arguments [] i).bind fun arguments i =>
    if !callee.isLoxCallable then
      .panic (.str "can only call functions and classes") i
    else
      match LoxCallable_arity i callee with
      | none => .timeout
      | some arity =>
        if arguments.length != arity then
          .panic (.str ("expected " ++ Itoa arity ++ " arguments" ++ " but got " ++
            Itoa arguments.length)) i
        else
          LoxCallable_call exec callee arguments i

/-- Source: `VisitorExpressionStmt` (interpreter.go:267-272). -/
def VisitorExpressionStmt (eval : Eval F) (exprStmtExpr : Expr F) (i : Interpreter F) :
    Res F Unit :=
  (eval exprStmtExpr i).bind fun _ i => .ok () i

/-- Source: `VisitorPrintStmt` (interpreter.go:274-279). -/
def VisitorPrintStmt [Host F] (eval : Eval F) (expression : Expr F) (i : Interpreter F) :
    Res F Unit :=
  (eval expression i).bind fun v i => .ok () { i with out := i.out ++ [Println i v] }

/-- Source: `VisitorVarStmt` (interpreter.go:281-290). -/
def VisitorVarStmt (eval : Eval F) (name : String) (initializer : Option (Expr F))
    (i : Interpreter F) : Res F Unit :=
  match initializer with
  | some e => (eval e i).bind fun value i => .ok () (environment_def i.env name value i)
  | none => .ok () (environment_def i.env name .nil i)

/-- Source: `VisitorBlockStmt` (interpreter.go:292-295). -/
def VisitorBlockStmt (exec : Exec F) (statements : List (Stmt F)) (i : Interpreter F) :
    Res F Unit :=
  let (env, i) := NewEnvironment (some i.env) i
  execBlock exec statements env i

/-- Source: `VisitorIfStmt` (interpreter.go:308-315). -/
def VisitorIfStmt (eval : Eval F) (exec : Exec F) (condition : Expr F) (thenBranch : Stmt F)
    (elseBranch : Option (Stmt F)) (i : Interpreter F) : Res F Unit :=
  (eval condition i).bind fun c i =>
    if isTruthy c then exec thenBranch i
    else match elseBranch with
      | some s => exec s i
      | none => .ok () i

/-- Source: `VisitorWhileStmt` (interpreter.go:317-322).  One turn of the
loop; the following turns are the execution of the same statement again. -/
def VisitorWhileStmt (eval : Eval F) (exec : Exec F) (condition : Expr F) (loopBody : Stmt F)
    (i : Interpreter F) : Res F Unit :=
  (eval condition i).bind fun c i =>
    if isTruthy c then
      (exec loopBody i).bind fun _ i => exec (.While condition loopBody) i
    else .ok () i

/-- Source: `VisitorFunctionStmt` (interpreter.go:324-328). -/
def VisitorFunctionStmt (name : String) (params : List String) (body : List (Stmt F))
    (i : Interpreter F) : Res F Unit :=
  let (function, i) := NewLoxFunction name params body i.env i
  .ok () (environment_def i.env name (.fn function) i)

/-- Source: `VisitorReturnStmt` (interpreter.go:334-340). -/
def VisitorReturnStmt (eval : Eval F) (value : Option (Expr F)) (i : Interpreter F) :
    Res F Unit :=
  match value with
  | some e => (eval e i).bind fun value i => .panic (.Return value) i
  | none => .panic (.Return .nil) i

mutual
/-- Source: `eval` (interpreter.go:71-73): `expr.Accept(i)` dispatches on the
node to the visitor method.  The first argument bounds the depth of the
calls. -/
def eval [Host F] : Nat → Expr F → Interpreter F → Res F (Value F)
  | 0, _, _ => .timeout
  | fuel + 1, expr, i =>
    match expr with
    | .Literal value => VisitorLiteralExpr value i
    | .Unary operator ropreand => VisitorUnaryExpr (eval fuel) operator ropreand i
    | .Binary lopreand operator ropreand =>
      VisitorBinaryExpr (eval fuel) lopreand operator ropreand i
    | .Group expression => VisitorGroupExpr (eval fuel) expression i
    | .Variable name => VisitorVariableExpr name i
    | .Assign name value => VisitorAssignExpr (eval fuel) name value i
    | .Logical lopreand operator ropreand =>
      VisitorLogicalExpr (eval fuel) lopreand operator ropreand i
    | .Call callee arguments => VisitorCallExpr (eval fuel) (exec fuel) callee arguments i
/-- Source: `exec` (interpreter.go:258-260): `stmt.Accept(i)` dispatches on
the node to the visitor method. -/
def exec [Host F] : Nat → Stmt F → Interpreter F → Res F Unit
  | 0, _, _ => .timeout
  | fuel + 1, stmt, i =>
    match stmt with
    | .Expression e => VisitorExpressionStmt (eval fuel) e i
    | .Print e => VisitorPrintStmt (eval fuel) e i
    | .Var name initializer => VisitorVarStmt (eval fuel) name initializer i
    | .Block statements => VisitorBlockStmt (exec fuel) statements i
    | .If condition thenBranch elseBranch =>
      VisitorIfStmt (eval fuel) (exec fuel) condition thenBranch elseBranch i
    | .While condition loopBody =>
      VisitorWhileStmt (eval fuel) (exec fuel) condition loopBody i
    | .Function name params body => VisitorFunctionStmt name params body i
    | .Return value => VisitorReturnStmt (eval fuel) value i
end

/-- Source: `Interpret` (interpreter.go:64-68). -/
def Interpret [Host F] (fuel : Nat) (statements : List (Stmt F)) (i : Interpreter F) :
    Res F Unit :=
  execStatements (exec fuel) statements i

/-- A host to run the model on: Lean's `Float` is the IEEE binary64 format of
Go's `float64`.  `fmt` is Lean's rendering of a `Float`, which need not be the
text Go prints, and the wall clock is a fixed sample. -/
instance floatHost : Host Float where
  add := fun a b => a + b
  sub := fun a b => a - b
  mul := fun a b => a * b
  div := fun a b => a / b
  neg := fun a => -a
  eq := fun a b => a == b
  lt := fun a b => decide (a < b)
  le := fun a b => decide (a ≤ b)
  gt := fun a b => decide (b < a)
  ge := fun a b => decide (b ≤ a)
  fmt := fun a => toString a
  now := fun k => { year := 2024, month := "January", day := 5, hour := 9, min := 30, sec := k }

/-- The arguments `arguments` evaluate, one after the other from left to
right, to the values `vs`: each expression is evaluated in the state the
previous one left, and the last one leaves the state `j`. -/
def argsEvalTo (eval : Eval F) :
    List (Expr F) → List (Value F) → Interpreter F → Interpreter F → Prop
  | [], [], i, j => i = j
  | argument :: rest, v :: vs, i, j =>
    ∃ i1, eval argument i = .ok v i1 ∧ argsEvalTo eval rest vs i1 j
  | _, _, _, _ => False

/-- The state in which a run leaves, by a return or by a panic; none when the
run has no outcome. -/
def Res.finalState {α : Type} : Res F α → Option (Interpreter F)
  | .ok _ i => some i
  | .panic _ i => some i
  | .timeout => none

/-- Go's `_, ok := r.(Return)` on a recovered panic value: whether the value is
the control signal of a `return` statement. -/
def Panic.isReturn : Panic F → Bool
  | .Return _ => true
  | _ => false

/-- An IEEE 754 binary64 value, the format of Go's `float64`, by the three
fields of its encoding: the sign bit, the 11 bits of the biased exponent and
the 52 bits of the fraction.  Every `float64` is exactly one `Float64`. -/
structure Float64 where
  sign : Bool
  exponent : Fin 2048
  fraction : Fin 4503599627370496
  deriving DecidableEq, Repr

/-- The NaN that an invalid operation produces.  Which NaN it is cannot be
observed by a Lox program (every NaN compares and prints alike); the model
takes the quiet NaN with a zero payload. -/
def Float64.nan : Float64 := ⟨false, 2047, 2251799813685248⟩

/-- Plus or minus infinity. -/
def Float64.inf (sign : Bool) : Float64 := ⟨sign, 2047, 0⟩

/-- Plus or minus zero. -/
def Float64.zero (sign : Bool) : Float64 := ⟨sign, 0, 0⟩

/-- Whether the value is a NaN: exponent all ones, fraction not zero. -/
def Float64.isNaN (x : Float64) : Bool := x.exponent.val == 2047 && x.fraction.val != 0

/-- Whether the value is an infinity: exponent all ones, fraction zero. -/
def Float64.isInf (x : Float64) : Bool := x.exponent.val == 2047 && x.fraction.val == 0

/-- Whether the value is a zero, of either sign. -/
def Float64.isZero (x : Float64) : Bool := x.exponent.val == 0 && x.fraction.val == 0

/-- The absolute value of a finite `float64` in units of `2^-1074` (the least
positive `float64`): `fraction` units for a subnormal, and
`(2^52 + fraction) * 2^(exponent - 1)` units for a normal number.  The same
formula gives an infinity `2^2098` units, more than every finite value. -/
def Float64.magnitude (x : Float64) : Nat :=
  (if x.exponent.val = 0 then x.fraction.val else 4503599627370496 + x.fraction.val)
    * 2 ^ (x.exponent.val - 1)

/-- The value of a `float64` that is no NaN, in units of `2^-1074`, with its
sign. -/
def Float64.scaled (x : Float64) : Int :=
  if x.sign then -(x.magnitude : Int) else (x.magnitude : Int)

/-- The `float64` of the given sign whose magnitude is `n` units of `2^-1074`,
for an `n` that a `float64` has; the infinity from `2^2098` units on. -/
def Float64.encode (sign : Bool) (n : Nat) : Float64 :=
  if 2 ^ 2098 ≤ n then Float64.inf sign
  else if n < 4503599627370496 then
    ⟨sign, 0, ⟨n % 4503599627370496, Nat.mod_lt _ (by decide)⟩⟩
  else
    let k := Nat.log2 n - 52
    ⟨sign, ⟨(k + 1) % 2048, Nat.mod_lt _ (by decide)⟩,
      ⟨(n / 2 ^ k - 4503599627370496) % 4503599627370496, Nat.mod_lt _ (by decide)⟩⟩

/-- IEEE 754 rounding to nearest, ties to even: the `float64` of the given
sign nearest to `num / den` units of `2^-1074` (`den` positive).  Below `2^53`
units the spacing of the `float64` is one unit; from there on it is `2^k`
units, where `k` is the binary logarithm of the quotient minus 52. -/
def Float64.roundRatio (sign : Bool) (num den : Nat) : Float64 :=
  let q := num / den
  let k := if q < 9007199254740992 then 0 else Nat.log2 q - 52
  let d := den * 2 ^ k
  let m := num / d
  let r := num % d
  let m1 := if d < 2 * r ∨ (2 * r = d ∧ m % 2 = 1) then m + 1 else m
  Float64.encode sign (m1 * 2 ^ k)

/-- Go's unary `-` on a `float64`: the sign bit is flipped. -/
def Float64.neg (x : Float64) : Float64 := { x with sign := !x.sign }

/-- Go's `+` on two `float64` (IEEE 754 addition): a NaN operand or the sum of
opposite infinities gives NaN; an exact sum of zero is `-0` when both operands
are negative and `+0` otherwise; every other sum is rounded. -/
def Float64.add (x y : Float64) : Float64 :=
  if x.isNaN || y.isNaN then Float64.nan
  else if x.isInf then (if y.isInf && x.sign != y.sign then Float64.nan else x)
  else if y.isInf then y
  else
    let s := x.scaled + y.scaled
    if s = 0 then Float64.zero (x.sign && y.sign)
    else Float64.roundRatio (decide (s < 0)) s.natAbs 1

/-- Go's `-` on two `float64`: the sum with the negated right operand. -/
def Float64.sub (x y : Float64) : Float64 := Float64.add x (Float64.neg y)

/-- Go's `*` on two `float64` (IEEE 754 multiplication): a NaN operand or zero
times infinity gives NaN; the sign is the exclusive or of the signs. -/
def Float64.mul (x y : Float64) : Float64 :=
  if x.isNaN || y.isNaN then Float64.nan
  else if x.isInf || y.isInf then
    (if x.isZero || y.isZero then Float64.nan else Float64.inf (x.sign != y.sign))
  else Float64.roundRatio (x.sign != y.sign) (x.magnitude * y.magnitude) (2 ^ 1074)

/-- Go's `/` on two `float64` (IEEE 754 division; it does not panic): a NaN
operand, zero by zero or infinity by infinity gives NaN; a finite value that
is not zero divided by zero gives an infinity. -/
def Float64.div (x y : Float64) : Float64 :=
  if x.isNaN || y.isNaN then Float64.nan
  else if x.isInf then (if y.isInf then Float64.nan else Float64.inf (x.sign != y.sign))
  else if y.isInf then Float64.zero (x.sign != y.sign)
  else if y.isZero then (if x.isZero then Float64.nan else Float64.inf (x.sign != y.sign))
  else Float64.roundRatio (x.sign != y.sign) (x.magnitude * 2 ^ 1074) y.magnitude

/-- Go's `==` on two `float64` (IEEE 754 comparison): a NaN is unordered with
every value, itself included; otherwise the numeric values are compared, the
sign of a zero being ignored. -/
def Float64.eq (x y : Float64) : Bool :=
  !x.isNaN && !y.isNaN && decide (x.scaled = y.scaled)

/-- Go's `<` on two `float64` (IEEE 754 comparison). -/
def Float64.lt (x y : Float64) : Bool :=
  !x.isNaN && !y.isNaN && decide (x.scaled < y.scaled)

/-- Go's `<=` on two `float64` (IEEE 754 comparison). -/
def Float64.le (x y : Float64) : Bool :=
  !x.isNaN && !y.isNaN && decide (x.scaled ≤ y.scaled)

/-- Whether `n` units of `2^-1074` are less than `10^e`. -/
def Float64.ltPow10 (n : Nat) (e : Int) : Bool :=
  if 0 ≤ e then n < 10 ^ e.toNat * 2 ^ 1074 else n * 10 ^ (-e).toNat < 2 ^ 1074

/-- The position of the decimal point of `n` units of `2^-1074`: the least
`dp` with the value below `10^dp`. -/
def Float64.decimalPoint (n : Nat) : Int :=
  match (List.range 640).find? (fun (i : Nat) => Float64.ltPow10 n ((i : Int) - 330)) with
  | some i => (i : Int) - 330
  | none => 310

/-- Whether the decimal `c * 10^s` rounds to the `float64` of magnitude `n`. -/
def Float64.roundTrips (c : Nat) (s : Int) (n : Nat) : Bool :=
  (if 0 ≤ s then Float64.roundRatio false (c * 10 ^ s.toNat * 2 ^ 1074) 1
   else Float64.roundRatio false (c * 2 ^ 1074) (10 ^ (-s).toNat)).magnitude == n

/-- The decimal of `nd` digits that `strconv` chooses for the magnitude `n`,
if one of the two decimals of `nd` digits next to the value rounds back to
it: the nearer one when both do. -/
def Float64.candidate (n : Nat) (dp : Int) (nd : Nat) : Option (Nat × Int) :=
  let s := dp - (nd : Int)
  let num := if 0 ≤ s then n else n * 10 ^ (-s).toNat
  let den := if 0 ≤ s then 2 ^ 1074 * 10 ^ s.toNat else 2 ^ 1074
  let lo := num / den
  let r := num % den
  let okdown := Float64.roundTrips lo s n
  let okup := Float64.roundTrips (lo + 1) s n
  if okdown && okup then
    if den < 2 * r ∨ (2 * r = den ∧ lo % 2 = 1) then some (lo + 1, s) else some (lo, s)
  else if okdown then some (lo, s)
  else if okup then some (lo + 1, s)
  else none

/-- Drop the trailing zeros of the decimal `c * 10^s`. -/
def Float64.stripZeros : Nat → Nat → Int → Nat × Int
  | 0, c, s => (c, s)
  | fuel + 1, c, s =>
    if c ≠ 0 ∧ c % 10 = 0 then Float64.stripZeros fuel (c / 10) (s + 1) else (c, s)

/-- The shortest decimal `c * 10^s` that rounds to the `float64` of magnitude
`n`, as `strconv.FormatFloat` with precision -1 finds it. -/
def Float64.shortest (n : Nat) : Nat × Int :=
  let dp := Float64.decimalPoint n
  match (List.range 17).findSome? (fun i => Float64.candidate n dp (i + 1)) with
  | some (c, s) => Float64.stripZeros 20 c s
  | none => (0, 0)

/-- The text `fmt.Println` writes for a `float64` (the verb `%v`, which is
`%g` with the shortest precision): `NaN`, `+Inf`, `-Inf`, and otherwise the
shortest digits that identify the value, in the exponent form when the decimal
exponent is below -4 or at least 6 and in the plain form otherwise. -/
def Float64.fmt (x : Float64) : String :=
  if x.isNaN then "NaN"
  else if x.isInf then (if x.sign then "-Inf" else "+Inf")
  else
    let neg := if x.sign then "-" else ""
    if x.isZero then neg ++ "0"
    else
      let (c, s) := Float64.shortest x.magnitude
      let digs := Nat.repr c
      let nd := digs.length
      let dp : Int := (nd : Int) + s
      let exp := dp - 1
      if exp < -4 ∨ 6 ≤ exp then
        let e := Nat.repr exp.natAbs
        neg ++ digs.take 1 ++ (if 1 < nd then "." ++ digs.drop 1 else "") ++ "e" ++
          (if exp < 0 then "-" else "+") ++ (if e.length < 2 then "0" ++ e else e)
      else if dp ≤ 0 then neg ++ "0." ++ String.mk (List.replicate (-dp).toNat '0') ++ digs
      else if (nd : Int) ≤ dp then neg ++ digs ++ String.mk (List.replicate (dp.toNat - nd) '0')
      else neg ++ digs.take dp.toNat ++ "." ++ digs.drop dp.toNat

/-- The Go runtime as a host: `float64` is IEEE 754 binary64 with rounding to
nearest, ties to even.  The wall clock is a fixed sample. -/
instance ieeeHost : Host Float64 where
  add := Float64.add
  sub := Float64.sub
  mul := Float64.mul
  div := Float64.div
  neg := Float64.neg
  eq := Float64.eq
  lt := Float64.lt
  le := Float64.le
  gt := fun a b => Float64.lt b a
  ge := fun a b => Float64.le b a
  fmt := Float64.fmt
  now := fun k => { year := 2024, month := "January", day := 5, hour := 9, min := 30, sec := k }

/-! ## Lemmas -/

theorem argsEvalTo_length (ev : Eval F) :
    ∀ (arguments : List (Expr F)) (vs : List (Value F)) (i j : Interpreter F),
      argsEvalTo ev arguments vs i j → vs.length = arguments.length
  | [], [], _, _, _ => rfl
  | [], _ :: _, _, _, h => by simp [argsEvalTo] at h
  | _ :: _, [], _, _, h => by simp [argsEvalTo] at h
  | _ :: rest, _ :: vs, _, j, h => by
    obtain ⟨i1, _, h2⟩ := h
    simp [argsEvalTo_length ev rest vs i1 j h2]

theorem evalArguments_of_argsEvalTo (ev : Eval F) :
    ∀ (arguments : List (Expr F)) (vs acc : List (Value F)) (i j : Interpreter F),
      argsEvalTo ev arguments vs i j → evalArguments ev arguments acc i = .ok (acc ++ vs) j
  | [], [], acc, i, j, h => by
    simp only [argsEvalTo] at h
    simp [evalArguments, h]
  | [], _ :: _, _, _, _, h => by simp [argsEvalTo] at h
  | _ :: _, [], _, _, _, h => by simp [argsEvalTo] at h
  | a :: rest, v :: vs, acc, i, j, h => by
    obtain ⟨i1, h1, h2⟩ := h
    simp [evalArguments, h1, Res.bind,
      evalArguments_of_argsEvalTo ev rest vs (acc ++ [v]) i1 j h2]

theorem isLoxCallable_of_arity (i : Interpreter F) (c : Value F) (n : Nat)
    (h : LoxCallable_arity i c = some n) : c.isLoxCallable = true := by
  cases c <;> simp [LoxCallable_arity, Value.isLoxCallable] at h ⊢

theorem arith_of_not_numbers (op : F → F → F) (x y : Value F)
    (h : ¬ (x.kind = Kind.number ∧ y.kind = Kind.number)) : arith op x y = Value.nil := by
  cases x <;> cases y <;> simp [arith, Value.asFloat64, Value.kind] at h ⊢

theorem compare_of_mismatch (opF : F → F → Bool) (opS : String → String → Bool)
    (x y : Value F) (hnum : ¬ (x.kind = Kind.number ∧ y.kind = Kind.number))
    (hstr : ¬ (x.kind = Kind.string ∧ y.kind = Kind.string)) :
    compare opF opS x y = Value.nil := by
  cases x <;> cases y <;>
    simp [compare, Value.asFloat64, Value.asString, Value.kind] at hnum hstr ⊢

/-- The cases `-`, `*`, `/` of `VisitorBinaryExpr` return nil, and do not
panic, when the operands are not both Numbers. -/
theorem binary_arith_fallthrough [Host F] (fuel : Nat) (l r : Expr F) (x y : Value F)
    (i i1 i2 : Interpreter F) (op : TokenType)
    (hop : op = TokenType.SUB ∨ op = TokenType.MUL ∨ op = TokenType.DIV)
    (hl : eval fuel l i = Res.ok x i1) (hr : eval fuel r i1 = Res.ok y i2)
    (hnum : ¬ (x.kind = Kind.number ∧ y.kind = Kind.number)) :
    eval (fuel + 1) (Expr.Binary l op r) i = Res.ok Value.nil i2 := by
  rcases hop with h | h | h <;> subst h <;>
    simp [eval, VisitorBinaryExpr, hl, hr, Res.bind, arith_of_not_numbers _ x y hnum]

/-- The cases `>`, `>=`, `<`, `<=` of `VisitorBinaryExpr` return nil, and do
not panic, when the operands are neither two Numbers nor two Strings. -/
theorem binary_compare_fallthrough [Host F] (fuel : Nat) (l r : Expr F) (x y : Value F)
    (i i1 i2 : Interpreter F) (op : TokenType)
    (hop : op = TokenType.GTR ∨ op = TokenType.GEQ ∨ op = TokenType.LSS ∨ op = TokenType.LEQ)
    (hl : eval fuel l i = Res.ok x i1) (hr : eval fuel r i1 = Res.ok y i2)
    (hnum : ¬ (x.kind = Kind.number ∧ y.kind = Kind.number))
    (hstr : ¬ (x.kind = Kind.string ∧ y.kind = Kind.string)) :
    eval (fuel + 1) (Expr.Binary l op r) i = Res.ok Value.nil i2 := by
  rcases hop with h | h | h | h <;> subst h <;>
    simp [eval, VisitorBinaryExpr, hl, hr, Res.bind, compare_of_mismatch _ _ x y hnum hstr]

/-- The case `-` of `VisitorUnaryExpr` returns nil, and does not panic, when
the operand is not a Number. -/
theorem unary_minus_fallthrough [Host F] (fuel : Nat) (r : Expr F) (x : Value F)
    (i i1 : Interpreter F) (hr : eval fuel r i = Res.ok x i1)
    (hnum : x.kind ≠ Kind.number) :
    eval (fuel + 1) (Expr.Unary TokenType.SUB r) i = Res.ok Value.nil i1 := by
  cases x <;> simp [eval, VisitorUnaryExpr, hr, Res.bind, Value.asFloat64, Value.kind] at hnum ⊢

theorem execStatements_append_panic (ex : Exec F) (s : Stmt F) (post : List (Stmt F))
    (p : Panic F) :
    ∀ (pre : List (Stmt F)) (i i1 j : Interpreter F),
      execStatements ex pre i = Res.ok () i1 → ex s i1 = Res.panic p j →
      execStatements ex (pre ++ s :: post) i = Res.panic p j
  | [], i, i1, j, hpre, hs => by
    simp only [execStatements, Res.ok.injEq, true_and] at hpre
    subst hpre
    simp [execStatements, hs, Res.bind]
  | t :: pre, i, i1, j, hpre, hs => by
    simp only [execStatements, List.cons_append] at hpre ⊢
    cases ht : ex t i with
    | ok u i0 =>
      simp only [ht, Res.bind] at hpre ⊢
      exact execStatements_append_panic ex s post p pre i0 i1 j hpre hs
    | panic q i0 => simp [ht, Res.bind] at hpre
    | timeout => simp [ht, Res.bind] at hpre

theorem lookup_mapSet_self (k : String) (v : Value F) :
    ∀ l : List (String × Value F), (mapSet l k v).lookup k = some v
  | [] => by simp [mapSet, List.lookup]
  | (k', v') :: rest => by
    by_cases h : k' = k
    · simp [mapSet, h, List.lookup]
    · have h' : (k == k') = false := by simpa using fun hk => h hk.symm
      simp [mapSet, h, List.lookup, h', lookup_mapSet_self k v rest]

theorem lookup_mapSet_other (k y : String) (v : Value F) (hy : y ≠ k) :
    ∀ l : List (String × Value F), (mapSet l k v).lookup y = l.lookup y
  | [] => by
    have h' : (y == k) = false := by simpa using hy
    simp [mapSet, List.lookup, h']
  | (k', v') :: rest => by
    by_cases h : k' = k
    · subst h
      have h' : (y == k') = false := by simpa using hy
      simp [mapSet, List.lookup, h']
    · cases hyk : (y == k') <;>
        simp [mapSet, h, List.lookup, hyk, lookup_mapSet_other k y v hy rest]

theorem environment_def_of_getElem (ptr : Nat) (name : String) (value : Value F)
    (i : Interpreter F) (e : environment F) (he : i.envs[ptr]? = some e) :
    environment_def ptr name value i
      = { i with envs := i.envs.set ptr { e with values := mapSet e.values name value } } := by
  simp [environment_def, he]

theorem environment_get_of_lookup (ptr : Nat) (name : String) (v : Value F)
    (i : Interpreter F) (e : environment F) (he : i.envs[ptr]? = some e)
    (hv : e.values.lookup name = some v) : environment_get ptr name i = Res.ok v i := by
  cases hlen : i.envs.length with
  | zero =>
    have : i.envs = [] := List.length_eq_zero.mp hlen
    simp [this] at he
  | succ n =>
    simp [environment_get, hlen, resolve, he, hv]

theorem resolve_found_spec (envs : List (environment F)) (name : String) (p : Nat) :
    ∀ (fuel ptr : Nat), resolve envs name fuel ptr = Resolved.found p →
      ∃ e, envs[p]? = some e ∧ (e.values.lookup name).isSome = true
  | 0, _, h => by simp [resolve] at h
  | fuel + 1, ptr, h => by
    unfold resolve at h
    cases he : envs[ptr]? with
    | none => simp [he] at h
    | some e =>
      simp only [he] at h
      by_cases hx : (e.values.lookup name).isSome = true
      · simp only [hx, if_true, Resolved.found.injEq] at h
        subst h
        exact ⟨e, he, hx⟩
      · simp only [hx] at h
        cases hp : e.enclosing with
        | none => simp [hp] at h
        | some parent =>
          simp only [hp] at h
          exact resolve_found_spec envs name p fuel parent (by simpa using h)

theorem resolve_set (envs : List (environment F)) (name : String) (value : Value F) (p : Nat)
    (e : environment F) (he : envs[p]? = some e) :
    ∀ (fuel ptr : Nat), resolve envs name fuel ptr = Resolved.found p →
      resolve (envs.set p { e with values := mapSet e.values name value }) name fuel ptr
        = Resolved.found p
  | 0, _, h => by simp [resolve] at h
  | fuel + 1, ptr, h => by
    have hlt : p < envs.length := by
      rcases List.getElem?_eq_some.mp he with ⟨hlt, _⟩
      exact hlt
    unfold resolve at h ⊢
    by_cases hpp : ptr = p
    · subst hpp
      simp [List.getElem?_set_self, hlt, lookup_mapSet_self]
    · have hne : (envs.set p { e with values := mapSet e.values name value })[ptr]?
          = envs[ptr]? := by
        simp [List.getElem?_set, Ne.symm hpp]
      rw [hne]
      cases he0 : envs[ptr]? with
      | none => simp [he0] at h
      | some e0 =>
        simp only [he0] at h ⊢
        by_cases hx : (e0.values.lookup name).isSome = true
        · simp only [hx, if_true, Resolved.found.injEq] at h
          exact absurd h hpp
        · simp only [hx] at h ⊢
          cases hpar : e0.enclosing with
          | none => simp [hpar] at h
          | some parent =>
            simp only [hpar] at h ⊢
            exact resolve_set envs name value p e he fuel parent (by simpa using h)

theorem evalArguments_panic (ev : Eval F) (a : Expr F) (post : List (Expr F)) (p : Panic F) :
    ∀ (pre : List (Expr F)) (vs acc : List (Value F)) (i1 i2 j : Interpreter F),
      argsEvalTo ev pre vs i1 i2 → ev a i2 = Res.panic p j →
      evalArguments ev (pre ++ a :: post) acc i1 = Res.panic p j
  | [], [], acc, i1, i2, j, h, ha => by
    simp only [argsEvalTo] at h
    subst h
    simp [evalArguments, ha, Res.bind]
  | [], _ :: _, _, _, _, _, h, _ => by simp [argsEvalTo] at h
  | _ :: _, [], _, _, _, _, h, _ => by simp [argsEvalTo] at h
  | b :: pre, v :: vs, acc, i1, i2, j, h, ha => by
    obtain ⟨i0, h1, h2⟩ := h
    simp [evalArguments, h1, Res.bind,
      evalArguments_panic ev a post p pre vs (acc ++ [v]) i0 i2 j h2 ha]

theorem Println_congr [Host F] (i j : Interpreter F) (v : Value F) (h : i.funs = j.funs) :
    Println i v = Println j v := by
  cases v <;> simp [Println, h]

theorem float64_normal_ne_of_lt (a b fx fy : Nat) (hx : fx < 4503599627370496) (hab : a < b) :
    (4503599627370496 + fx) * 2 ^ a ≠ (4503599627370496 + fy) * 2 ^ b := by
  intro h
  obtain ⟨c, rfl⟩ : ∃ c, b = a + (c + 1) := ⟨b - a - 1, by omega⟩
  have h1 : (4503599627370496 + fy) * 2 ^ (a + (c + 1))
      = (4503599627370496 + fy) * 2 ^ (c + 1) * 2 ^ a := by
    rw [Nat.pow_add, Nat.mul_comm (2 ^ a), Nat.mul_assoc]
  rw [h1] at h
  have h2 := Nat.eq_of_mul_eq_mul_right (Nat.two_pow_pos a) h
  have h3 : 2 ≤ 2 ^ (c + 1) := by
    calc 2 = 2 ^ 1 := rfl
      _ ≤ 2 ^ (c + 1) := Nat.pow_le_pow_right (by decide) (by omega)
  have h4 : (4503599627370496 + fy) * 2 ≤ (4503599627370496 + fy) * 2 ^ (c + 1) :=
    Nat.mul_le_mul_left _ h3
  omega

theorem float64_magnitude_inj (x y : Float64) (h : x.magnitude = y.magnitude) :
    x.exponent = y.exponent ∧ x.fraction = y.fraction := by
  have hx := x.fraction.isLt
  have hy := y.fraction.isLt
  have hpx : 1 ≤ 2 ^ (x.exponent.val - 1) := Nat.two_pow_pos _
  have hpy : 1 ≤ 2 ^ (y.exponent.val - 1) := Nat.two_pow_pos _
  unfold Float64.magnitude at h
  by_cases hex : x.exponent.val = 0 <;> by_cases hey : y.exponent.val = 0
  · simp only [hex, hey, if_true] at h
    simp at h
    exact ⟨Fin.ext (by omega), Fin.ext h⟩
  · simp only [hex, hey, if_true, if_false] at h
    have h2 : (4503599627370496 + y.fraction.val) * 1
        ≤ (4503599627370496 + y.fraction.val) * 2 ^ (y.exponent.val - 1) :=
      Nat.mul_le_mul_left _ hpy
    simp at h
    omega
  · simp only [hex, hey, if_true, if_false] at h
    have h2 : (4503599627370496 + x.fraction.val) * 1
        ≤ (4503599627370496 + x.fraction.val) * 2 ^ (x.exponent.val - 1) :=
      Nat.mul_le_mul_left _ hpx
    simp at h
    omega
  · simp only [hex, hey, if_false] at h
    have hab : x.exponent.val - 1 = y.exponent.val - 1 := by
      rcases Nat.lt_trichotomy (x.exponent.val - 1) (y.exponent.val - 1) with hlt | heq | hgt
      · exact absurd h (float64_normal_ne_of_lt _ _ _ _ hx hlt)
      · exact heq
      · exact absurd h.symm (float64_normal_ne_of_lt _ _ _ _ hy hgt)
    rw [hab] at h
    have h2 := Nat.eq_of_mul_eq_mul_right (Nat.two_pow_pos _) h
    exact ⟨Fin.ext (by omega), Fin.ext (by omega)⟩

theorem float64_magnitude_eq_zero_iff (x : Float64) : x.magnitude = 0 ↔ x.isZero = true := by
  have hp : 2 ^ (x.exponent.val - 1) ≠ 0 := (Nat.two_pow_pos _).ne'
  unfold Float64.magnitude Float64.isZero
  by_cases hex : x.exponent.val = 0
  · simp [hex]
  · simp [hex, hp]

theorem float64_scaled_eq_iff (x y : Float64) :
    x.scaled = y.scaled ↔ x = y ∨ (x.isZero = true ∧ y.isZero = true) := by
  constructor
  · intro h
    unfold Float64.scaled at h
    cases hsx : x.sign <;> cases hsy : y.sign <;>
      simp only [hsx, hsy, Bool.false_eq_true, if_false, if_true] at h
    · have hm : x.magnitude = y.magnitude := by exact_mod_cast h
      obtain ⟨he, hf⟩ := float64_magnitude_inj x y hm
      left
      cases x; cases y; simp_all
    · right
      have h0 : x.magnitude = 0 ∧ y.magnitude = 0 := by omega
      exact ⟨(float64_magnitude_eq_zero_iff x).mp h0.1, (float64_magnitude_eq_zero_iff y).mp h0.2⟩
    · right
      have h0 : x.magnitude = 0 ∧ y.magnitude = 0 := by omega
      exact ⟨(float64_magnitude_eq_zero_iff x).mp h0.1, (float64_magnitude_eq_zero_iff y).mp h0.2⟩
    · have hm : x.magnitude = y.magnitude := by omega
      obtain ⟨he, hf⟩ := float64_magnitude_inj x y hm
      left
      cases x; cases y; simp_all
  · rintro (h | ⟨hx, hy⟩)
    · rw [h]
    · have h1 := (float64_magnitude_eq_zero_iff x).mpr hx
      have h2 := (float64_magnitude_eq_zero_iff y).mpr hy
      unfold Float64.scaled
      simp [h1, h2]

theorem float64_eq_iff (x y : Float64) :
    Float64.eq x y = true ↔
      x.isNaN = false ∧ y.isNaN = false ∧ (x = y ∨ (x.isZero = true ∧ y.isZero = true)) := by
  unfold Float64.eq
  simp [float64_scaled_eq_iff, and_assoc]

theorem float64_eq_symm (x y : Float64) : Float64.eq x y = Float64.eq y x := by
  unfold Float64.eq
  cases x.isNaN <;> cases y.isNaN <;> simp [eq_comm]

/-- The equality rule of `isEqual` over any host: two Nil are equal; Nil and a value
that is not Nil are unequal, in either order; values of different kinds are
unequal; two Booleans, two Strings or two Callables are equal exactly when
they are the same value (for Callables the same pointer); two Numbers are
equal exactly when the host comparison of `float64` says so. -/
theorem isEqual_rule_any_host [Host F] :
    isEqual (Value.nil : Value F) Value.nil = true ∧
    (∀ b : Value F, b ≠ Value.nil →
      isEqual Value.nil b = false ∧ isEqual b Value.nil = false) ∧
    (∀ a b : Value F, a.kind ≠ b.kind → isEqual a b = false) ∧
    (∀ x y : Bool, isEqual (Value.bool x : Value F) (Value.bool y) = true ↔ x = y) ∧
    (∀ x y : F, isEqual (Value.num x) (Value.num y) = Host.eq x y) ∧
    (∀ s t : String, isEqual (Value.str s : Value F) (Value.str t) = true ↔ s = t) ∧
    (∀ a b : Value F, a.kind = Kind.callable → b.kind = Kind.callable →
      (isEqual a b = true ↔ a = b)) := by
  refine ⟨rfl, ?_, ?_, ?_, ?_, ?_, ?_⟩
  · intro b hb
    cases b <;> simp [isEqual, Value.isNil, Value.ifaceEq] at hb ⊢
  · intro a b h
    cases a <;> cases b <;> simp [isEqual, Value.isNil, Value.ifaceEq, Value.kind] at h ⊢
  · intro x y
    simp [isEqual, Value.isNil, Value.ifaceEq]
  · intro x y
    simp [isEqual, Value.isNil, Value.ifaceEq]
  · intro s t
    simp [isEqual, Value.isNil, Value.ifaceEq]
  · intro a b ha hb
    cases a <;> cases b <;> simp [isEqual, Value.isNil, Value.ifaceEq, Value.kind] at ha hb ⊢

/-- Over any host, `isEqual a b = isEqual b a` once, for two Numbers, the host
comparison of the two is symmetric. -/
theorem isEqual_symm_of_host [Host F] (a b : Value F)
    (hnum : ∀ x y : F, a = Value.num x → b = Value.num y → Host.eq x y = Host.eq y x) :
    isEqual a b = isEqual b a := by
  cases a <;> cases b <;> simp [isEqual, Value.isNil, Value.ifaceEq, eq_comm]
  exact hnum _ _ rfl rfl

/-! ## The claims -/

/-- C1. `isTruthy v` is false exactly when `v` is Nil or the boolean false, and
true for every other value. -/
theorem isTruthy_false_iff (v : Value F) :
    (isTruthy v = false ↔ v = Value.nil ∨ v = Value.bool false) ∧
    (isTruthy v = true ↔ v ≠ Value.nil ∧ v ≠ Value.bool false) := by
  cases v <;> simp [isTruthy, Value.isNil]

/-- C2 (as amended). The equality rule of `isEqual` on the Go host: two Nil
are equal; Nil and a value that is not Nil are unequal, in either order;
values of different kinds are unequal; two Booleans, two Strings or two
Callables are equal exactly when they are the same value (for Callables the
same pointer); two Numbers are equal exactly when neither is a NaN and they
are the same `float64` or are both zeros. -/
theorem isEqual_rule_float64 :
    isEqual (Value.nil : Value Float64) Value.nil = true ∧
    (∀ b : Value Float64, b ≠ Value.nil →
      isEqual Value.nil b = false ∧ isEqual b Value.nil = false) ∧
    (∀ a b : Value Float64, a.kind ≠ b.kind → isEqual a b = false) ∧
    (∀ x y : Bool, isEqual (Value.bool x : Value Float64) (Value.bool y) = true ↔ x = y) ∧
    (∀ x y : Float64, isEqual (Value.num x) (Value.num y) = true ↔
      x.isNaN = false ∧ y.isNaN = false ∧ (x = y ∨ (x.isZero = true ∧ y.isZero = true))) ∧
    (∀ s t : String, isEqual (Value.str s : Value Float64) (Value.str t) = true ↔ s = t) ∧
    (∀ a b : Value Float64, a.kind = Kind.callable → b.kind = Kind.callable →
      (isEqual a b = true ↔ a = b)) := by
  obtain ⟨h1, h2, h3, h4, h5, h6, h7⟩ := isEqual_rule_any_host (F := Float64)
  refine ⟨h1, h2, h3, h4, ?_, h6, h7⟩
  intro x y
  rw [h5 x y]
  exact float64_eq_iff x y

/-- C2 (counterexample). `0/0` evaluates to a NaN, and `isEqual` of that NaN
and itself is false although both sides are the same Number; `isEqual` of `+0`
and `-0` is true although they are two different Numbers. -/
theorem isEqual_same_value_counterexample :
    eval 2 (Expr.Binary (Expr.Literal (Value.num (Float64.zero false))) TokenType.DIV
          (Expr.Literal (Value.num (Float64.zero false))))
        (NewInterpreter : Interpreter Float64)
      = Res.ok (Value.num Float64.nan) NewInterpreter ∧
    isEqual (Value.num Float64.nan) (Value.num Float64.nan) = false ∧
    ¬ (isEqual (Value.num Float64.nan) (Value.num Float64.nan) = true ↔
        (Value.num Float64.nan : Value Float64) = Value.num Float64.nan) ∧
    isEqual (Value.num (Float64.zero false)) (Value.num (Float64.zero true)) = true ∧
    Float64.zero false ≠ Float64.zero true := by
  refine ⟨rfl, rfl, ?_, rfl, by decide⟩
  intro h
  have hf : isEqual (Value.num Float64.nan) (Value.num Float64.nan) = false := rfl
  rw [hf] at h
  exact Bool.false_ne_true (h.mpr rfl)

/-- C3. When the operands of a binary `+` evaluate to `x` and then `y`: if they
are the Numbers `a` and `b` the expression evaluates to the Number `a + b`,
and if they are the Strings `s` and `t` it evaluates to the String `s`
followed by `t`. -/
theorem binary_add_numbers_strings [Host F] (fuel : Nat) (l r : Expr F) (x y : Value F)
    (i i1 i2 : Interpreter F)
    (hl : eval fuel l i = Res.ok x i1) (hr : eval fuel r i1 = Res.ok y i2) :
    (∀ a b : F, x = Value.num a → y = Value.num b →
      eval (fuel + 1) (Expr.Binary l TokenType.ADD r) i = Res.ok (Value.num (Host.add a b)) i2) ∧
    (∀ s t : String, x = Value.str s → y = Value.str t →
      eval (fuel + 1) (Expr.Binary l TokenType.ADD r) i = Res.ok (Value.str (s ++ t)) i2) := by
  constructor
  · intro a b hx hy
    subst hx hy
    simp [eval, VisitorBinaryExpr, hl, hr, Res.bind, Value.asFloat64]
  · intro s t hx hy
    subst hx hy
    simp [eval, VisitorBinaryExpr, hl, hr, Res.bind, Value.asFloat64, Value.asString]

/-- Witness of C3: `1 + 2` and `"ab" + "cd"`. -/
theorem binary_add_numbers_strings_witness :
    eval 2 (Expr.Binary (Expr.Literal (Value.num 1)) TokenType.ADD (Expr.Literal (Value.num 2)))
        (NewInterpreter : Interpreter Float)
      = Res.ok (Value.num (Host.add (1 : Float) 2)) NewInterpreter ∧
    eval 2 (Expr.Binary (Expr.Literal (Value.str "ab")) TokenType.ADD
          (Expr.Literal (Value.str "cd")))
        (NewInterpreter : Interpreter Float)
      = Res.ok (Value.str ("ab" ++ "cd")) NewInterpreter :=
  ⟨(binary_add_numbers_strings 1 (Expr.Literal (Value.num 1)) (Expr.Literal (Value.num 2))
      (Value.num 1) (Value.num 2) NewInterpreter NewInterpreter NewInterpreter rfl rfl).1
      1 2 rfl rfl,
   (binary_add_numbers_strings 1 (Expr.Literal (Value.str "ab")) (Expr.Literal (Value.str "cd"))
      (Value.str "ab") (Value.str "cd") NewInterpreter NewInterpreter NewInterpreter rfl rfl).2
      "ab" "cd" rfl rfl⟩

/-- C4. When the operands of a binary `+` evaluate to a pair of values that is
neither two Numbers nor two Strings, the evaluation panics with the message
of the type error, which names the operator `'+'`, and returns no value. -/
theorem binary_add_type_mismatch [Host F] (fuel : Nat) (l r : Expr F) (x y : Value F)
    (i i1 i2 : Interpreter F)
    (hl : eval fuel l i = Res.ok x i1) (hr : eval fuel r i1 = Res.ok y i2)
    (hnum : ¬ (x.kind = Kind.number ∧ y.kind = Kind.number))
    (hstr : ¬ (x.kind = Kind.string ∧ y.kind = Kind.string)) :
    eval (fuel + 1) (Expr.Binary l TokenType.ADD r) i
      = Res.panic (Panic.str ("the binary operator " ++ "'+'" ++
          " can only be used for numbers or strings")) i2 := by
  have hmsg : "the binary operator " ++ "'+'" ++ " can only be used for numbers or strings"
      = "the binary operator '+' can only be used for numbers or strings" := by decide
  rw [hmsg]
  cases x <;> cases y <;>
    simp [eval, VisitorBinaryExpr, hl, hr, Res.bind, Value.asFloat64, Value.asString,
      Value.kind] at hnum hstr ⊢

/-- Witness of C4: `1 + "x"`. -/
theorem binary_add_type_mismatch_witness :
    eval 2 (Expr.Binary (Expr.Literal (Value.num 1)) TokenType.ADD (Expr.Literal (Value.str "x")))
        (NewInterpreter : Interpreter Float)
      = Res.panic (Panic.str ("the binary operator " ++ "'+'" ++
          " can only be used for numbers or strings")) NewInterpreter :=
  binary_add_type_mismatch 1 (Expr.Literal (Value.num 1)) (Expr.Literal (Value.str "x"))
    (Value.num 1) (Value.str "x") NewInterpreter NewInterpreter NewInterpreter rfl rfl
    (by simp [Value.kind]) (by simp [Value.kind])

/-- C5 (the code at a failing input). For every Number `f`, the expressions
`f - "x"`, `f * "x"`, `f / "x"`, `f > "x"`, `f >= "x"`, `f < "x"` and
`f <= "x"` complete with the value nil: no type error is raised. -/
theorem binary_number_string_returns_nil [Host F] (f : F) :
    eval 2 (Expr.Binary (Expr.Literal (Value.num f)) TokenType.SUB (Expr.Literal (Value.str "x")))
        (NewInterpreter : Interpreter F)
      = Res.ok Value.nil NewInterpreter ∧
    eval 2 (Expr.Binary (Expr.Literal (Value.num f)) TokenType.MUL (Expr.Literal (Value.str "x")))
        (NewInterpreter : Interpreter F)
      = Res.ok Value.nil NewInterpreter ∧
    eval 2 (Expr.Binary (Expr.Literal (Value.num f)) TokenType.DIV (Expr.Literal (Value.str "x")))
        (NewInterpreter : Interpreter F)
      = Res.ok Value.nil NewInterpreter ∧
    eval 2 (Expr.Binary (Expr.Literal (Value.num f)) TokenType.GTR (Expr.Literal (Value.str "x")))
        (NewInterpreter : Interpreter F)
      = Res.ok Value.nil NewInterpreter ∧
    eval 2 (Expr.Binary (Expr.Literal (Value.num f)) TokenType.GEQ (Expr.Literal (Value.str "x")))
        (NewInterpreter : Interpreter F)
      = Res.ok Value.nil NewInterpreter ∧
    eval 2 (Expr.Binary (Expr.Literal (Value.num f)) TokenType.LSS (Expr.Literal (Value.str "x")))
        (NewInterpreter : Interpreter F)
      = Res.ok Value.nil NewInterpreter ∧
    eval 2 (Expr.Binary (Expr.Literal (Value.num f)) TokenType.LEQ (Expr.Literal (Value.str "x")))
        (NewInterpreter : Interpreter F)
      = Res.ok Value.nil NewInterpreter :=
  ⟨binary_arith_fallthrough 1 _ _ (Value.num f) (Value.str "x") _ _ _ TokenType.SUB
     (Or.inl rfl) rfl rfl (by simp [Value.kind]),
   binary_arith_fallthrough 1 _ _ (Value.num f) (Value.str "x") _ _ _ TokenType.MUL
     (Or.inr (Or.inl rfl)) rfl rfl (by simp [Value.kind]),
   binary_arith_fallthrough 1 _ _ (Value.num f) (Value.str "x") _ _ _ TokenType.DIV
     (Or.inr (Or.inr rfl)) rfl rfl (by simp [Value.kind]),
   binary_compare_fallthrough 1 _ _ (Value.num f) (Value.str "x") _ _ _ TokenType.GTR
     (Or.inl rfl) rfl rfl (by simp [Value.kind]) (by simp [Value.kind]),
   binary_compare_fallthrough 1 _ _ (Value.num f) (Value.str "x") _ _ _ TokenType.GEQ
     (Or.inr (Or.inl rfl)) rfl rfl (by simp [Value.kind]) (by simp [Value.kind]),
   binary_compare_fallthrough 1 _ _ (Value.num f) (Value.str "x") _ _ _ TokenType.LSS
     (Or.inr (Or.inr (Or.inl rfl))) rfl rfl (by simp [Value.kind]) (by simp [Value.kind]),
   binary_compare_fallthrough 1 _ _ (Value.num f) (Value.str "x") _ _ _ TokenType.LEQ
     (Or.inr (Or.inr (Or.inr rfl))) rfl rfl (by simp [Value.kind]) (by simp [Value.kind])⟩

/-- C6 (the code at a failing input). Unary `-` on the Number `f` evaluates to
the Number `-f`, but unary `-` on the String `"x"`, on `true` and on nil
completes with the value nil: no type error is raised. -/
theorem unary_minus_non_number_returns_nil [Host F] (f : F) :
    eval 2 (Expr.Unary TokenType.SUB (Expr.Literal (Value.num f))) (NewInterpreter : Interpreter F)
      = Res.ok (Value.num (Host.neg f)) NewInterpreter ∧
    eval 2 (Expr.Unary TokenType.SUB (Expr.Literal (Value.str "x")))
        (NewInterpreter : Interpreter F)
      = Res.ok Value.nil NewInterpreter ∧
    eval 2 (Expr.Unary TokenType.SUB (Expr.Literal (Value.bool true)))
        (NewInterpreter : Interpreter F)
      = Res.ok Value.nil NewInterpreter ∧
    eval 2 (Expr.Unary TokenType.SUB (Expr.Literal Value.nil)) (NewInterpreter : Interpreter F)
      = Res.ok Value.nil NewInterpreter :=
  ⟨rfl,
   unary_minus_fallthrough 1 _ (Value.str "x") _ _ rfl (by simp [Value.kind]),
   unary_minus_fallthrough 1 _ (Value.bool true) _ _ rfl (by simp [Value.kind]),
   unary_minus_fallthrough 1 _ Value.nil _ _ rfl (by simp [Value.kind])⟩

/-- C7. Short circuit: when the left operand of a logical expression evaluates
to `v`, leaving the state `i1`, then for `or` with `v` truthy, and for `and`
with `v` falsy, the expression evaluates to `v` and leaves the state `i1`
whatever the right operand is: the right operand is not evaluated. -/
theorem logical_short_circuit [Host F] (fuel : Nat) (l : Expr F) (v : Value F)
    (i i1 : Interpreter F) (hl : eval fuel l i = Res.ok v i1) :
    (isTruthy v = true →
      ∀ r : Expr F, eval (fuel + 1) (Expr.Logical l TokenType.OR r) i = Res.ok v i1) ∧
    (isTruthy v = false →
      ∀ r : Expr F, eval (fuel + 1) (Expr.Logical l TokenType.AND r) i = Res.ok v i1) := by
  constructor
  · intro hv r
    simp [eval, VisitorLogicalExpr, hl, Res.bind, hv]
  · intro hv r
    simp [eval, VisitorLogicalExpr, hl, Res.bind, hv]

/-- Witness of C7: `nil + nil` panics, yet `"hi" or (nil + nil)` is `"hi"` and
`nil and (nil + nil)` is nil; and `"hi" or (1/0)` is `"hi"`. -/
theorem logical_short_circuit_witness :
    eval 2 (Expr.Binary (Expr.Literal Value.nil) TokenType.ADD (Expr.Literal Value.nil))
        (NewInterpreter : Interpreter Float)
      = Res.panic (Panic.str "the binary operator '+' can only be used for numbers or strings")
          NewInterpreter ∧
    eval 2 (Expr.Logical (Expr.Literal (Value.str "hi")) TokenType.OR
          (Expr.Binary (Expr.Literal Value.nil) TokenType.ADD (Expr.Literal Value.nil)))
        (NewInterpreter : Interpreter Float)
      = Res.ok (Value.str "hi") NewInterpreter ∧
    eval 2 (Expr.Logical (Expr.Literal Value.nil) TokenType.AND
          (Expr.Binary (Expr.Literal Value.nil) TokenType.ADD (Expr.Literal Value.nil)))
        (NewInterpreter : Interpreter Float)
      = Res.ok Value.nil NewInterpreter ∧
    eval 2 (Expr.Logical (Expr.Literal (Value.str "hi")) TokenType.OR
          (Expr.Group (Expr.Binary (Expr.Literal (Value.num 1)) TokenType.DIV
            (Expr.Literal (Value.num 0)))))
        (NewInterpreter : Interpreter Float)
      = Res.ok (Value.str "hi") NewInterpreter :=
  ⟨rfl,
   (logical_short_circuit 1 (Expr.Literal (Value.str "hi")) (Value.str "hi") NewInterpreter
      NewInterpreter rfl).1 rfl _,
   (logical_short_circuit 1 (Expr.Literal Value.nil) Value.nil NewInterpreter
      NewInterpreter rfl).2 rfl _,
   (logical_short_circuit 1 (Expr.Literal (Value.str "hi")) (Value.str "hi") NewInterpreter
      NewInterpreter rfl).1 rfl _⟩

/-- C8. When the operands of a logical expression evaluate to `a` and then
`b`, the expression evaluates to one of these two values, unchanged: `a or b`
to `a` when `a` is truthy and to `b` otherwise, `a and b` to `a` when `a` is
falsy and to `b` otherwise. -/
theorem logical_returns_operand [Host F] (fuel : Nat) (l r : Expr F) (a b : Value F)
    (i i1 i2 : Interpreter F)
    (hl : eval fuel l i = Res.ok a i1) (hr : eval fuel r i1 = Res.ok b i2) :
    eval (fuel + 1) (Expr.Logical l TokenType.OR r) i
      = (if isTruthy a = true then Res.ok a i1 else Res.ok b i2) ∧
    eval (fuel + 1) (Expr.Logical l TokenType.AND r) i
      = (if isTruthy a = true then Res.ok b i2 else Res.ok a i1) := by
  constructor
  · cases h : isTruthy a <;> simp [eval, VisitorLogicalExpr, hl, hr, Res.bind, h]
  · cases h : isTruthy a <;> simp [eval, VisitorLogicalExpr, hl, hr, Res.bind, h]

/-- Witness of C8: `"" or "b"` is the String `""` (truthy, not the Boolean
true) and `"" and "b"` is `"b"`. -/
theorem logical_returns_operand_witness :
    eval 2 (Expr.Logical (Expr.Literal (Value.str "")) TokenType.OR
          (Expr.Literal (Value.str "b")))
        (NewInterpreter : Interpreter Float)
      = Res.ok (Value.str "") NewInterpreter ∧
    eval 2 (Expr.Logical (Expr.Literal (Value.str "")) TokenType.AND
          (Expr.Literal (Value.str "b")))
        (NewInterpreter : Interpreter Float)
      = Res.ok (Value.str "b") NewInterpreter :=
  logical_returns_operand 1 (Expr.Literal (Value.str "")) (Expr.Literal (Value.str "b"))
    (Value.str "") (Value.str "b") NewInterpreter NewInterpreter NewInterpreter rfl rfl

/-- C9. When the callee of a call evaluates to a callable `c`, the arguments
evaluate from left to right leaving the state `i2`, and the number of
arguments differs from `c.arity()`, the call panics with the message
`expected <arity> arguments but got <number of arguments>` in the state `i2`:
`call` is not invoked. -/
theorem call_arity_mismatch [Host F] (fuel : Nat) (callee : Expr F) (arguments : List (Expr F))
    (c : Value F) (vs : List (Value F)) (arity : Nat) (i i1 i2 : Interpreter F)
    (hc : eval fuel callee i = Res.ok c i1)
    (ha : argsEvalTo (eval fuel) arguments vs i1 i2)
    (harity : LoxCallable_arity i2 c = some arity)
    (hne : arguments.length ≠ arity) :
    eval (fuel + 1) (Expr.Call callee arguments) i
      = Res.panic (Panic.str ("expected " ++ Itoa arity ++ " arguments but got " ++
          Itoa arguments.length)) i2 := by
  have hlen := argsEvalTo_length (eval fuel) arguments vs i1 i2 ha
  have hargs := evalArguments_of_argsEvalTo (eval fuel) arguments vs [] i1 i2 ha
  have hcall := isLoxCallable_of_arity i2 c arity harity
  simp [eval, VisitorCallExpr, hc, hargs, Res.bind, hcall, harity, hlen, hne, String.append_assoc]

/-- Witness of C9: `clock(1)` fails reporting expected 0 and got 1. -/
theorem call_arity_mismatch_witness :
    eval 3 (Expr.Call (Expr.Variable "clock") [Expr.Literal (Value.num 1)])
        (NewInterpreter : Interpreter Float)
      = Res.panic (Panic.str "expected 0 arguments but got 1") NewInterpreter :=
  call_arity_mismatch 2 (Expr.Variable "clock") [Expr.Literal (Value.num 1)] Value.clock
    [Value.num 1] 0 NewInterpreter NewInterpreter NewInterpreter rfl ⟨NewInterpreter, rfl, rfl⟩
    rfl (by decide)

/-- C10. When the callee of a call evaluates to `c` and the arguments evaluate
from left to right to the values `vs`, leaving the state `i2`: if `c` is no
callable (nil, a Boolean, a Number or a String) the call panics with the
message `can only call functions and classes`, whatever the number of
arguments; if `c` is a callable whose arity is the number of arguments, the
result of the call expression is the result of `c.call` on `vs`. -/
theorem call_not_callable_or_result [Host F] (fuel : Nat) (callee : Expr F)
    (arguments : List (Expr F)) (c : Value F) (vs : List (Value F)) (i i1 i2 : Interpreter F)
    (hc : eval fuel callee i = Res.ok c i1)
    (ha : argsEvalTo (eval fuel) arguments vs i1 i2) :
    ((c.kind = Kind.nil ∨ c.kind = Kind.boolean ∨ c.kind = Kind.number ∨ c.kind = Kind.string) →
      eval (fuel + 1) (Expr.Call callee arguments) i
        = Res.panic (Panic.str "can only call functions and classes") i2) ∧
    (∀ arity : Nat, LoxCallable_arity i2 c = some arity → arguments.length = arity →
      eval (fuel + 1) (Expr.Call callee arguments) i
        = LoxCallable_call (exec fuel) c vs i2) := by
  have hlen := argsEvalTo_length (eval fuel) arguments vs i1 i2 ha
  have hargs := evalArguments_of_argsEvalTo (eval fuel) arguments vs [] i1 i2 ha
  constructor
  · intro hk
    cases c <;>
      simp [eval, VisitorCallExpr, hc, hargs, Res.bind, Value.isLoxCallable, Value.kind] at hk ⊢
  · intro arity harity heq
    have hcall := isLoxCallable_of_arity i2 c arity harity
    simp [eval, VisitorCallExpr, hc, hargs, Res.bind, hcall, harity, hlen, heq]

/-- Witness of C10: `"x"(nil)` is not callable; `clock()` returns what the
`call` of `clock` returns. -/
theorem call_not_callable_or_result_witness :
    eval 2 (Expr.Call (Expr.Literal (Value.str "x")) [Expr.Literal Value.nil])
        (NewInterpreter : Interpreter Float)
      = Res.panic (Panic.str "can only call functions and classes") NewInterpreter ∧
    eval 3 (Expr.Call (Expr.Variable "clock") []) (NewInterpreter : Interpreter Float)
      = LoxCallable_call (exec 2) Value.clock [] NewInterpreter :=
  ⟨(call_not_callable_or_result 1 (Expr.Literal (Value.str "x")) [Expr.Literal Value.nil]
      (Value.str "x") [Value.nil] NewInterpreter NewInterpreter NewInterpreter rfl
      ⟨NewInterpreter, rfl, rfl⟩).1 (by simp [Value.kind]),
   (call_not_callable_or_result 2 (Expr.Variable "clock") [] Value.clock [] NewInterpreter
      NewInterpreter NewInterpreter rfl rfl).2 0 rfl rfl⟩

/-- C11. Whenever `execBlock` leaves, by returning or by a panic (a `Return`
signal or a runtime error), in the state `j`, the current environment of `j`
is the one that was current when `execBlock` was entered; the same holds for
the execution of a block statement. -/
theorem execBlock_restores_env [Host F] (fuel : Nat) (statements : List (Stmt F)) (env : Nat)
    (i j : Interpreter F)
    (h : (execBlock (exec fuel) statements env i).finalState = some j) :
    j.env = i.env ∧
    (∀ k : Interpreter F,
      (exec (fuel + 1) (Stmt.Block statements) i).finalState = some k → k.env = i.env) := by
  constructor
  · unfold execBlock at h
    cases hs : execStatements (exec fuel) statements { i with env := env } <;>
      simp [hs, Res.finalState] at h
    · subst h; rfl
    · subst h; rfl
  · intro k hk
    simp only [exec, VisitorBlockStmt, NewEnvironment, execBlock] at hk
    split at hk <;> simp [Res.finalState] at hk
    · subst hk; rfl
    · subst hk; rfl

/-- Witness of C11: a block that completes, a block left by a `Return` signal
and a block left by a type error all leave with the environment 0 that was
current at entry. -/
theorem execBlock_restores_env_witness :
    (∃ j, execBlock (exec 2) [Stmt.Var "a" none] 1
          (NewEnvironment (some 0) (NewInterpreter : Interpreter Float)).2 = Res.ok () j ∧
        j.env = 0) ∧
    (∃ j, execBlock (exec 2) [Stmt.Return none] 1
          (NewEnvironment (some 0) (NewInterpreter : Interpreter Float)).2
          = Res.panic (Panic.Return Value.nil) j ∧ j.env = 0) ∧
    (∃ j, execBlock (exec 3)
          [Stmt.Expression (Expr.Binary (Expr.Literal Value.nil) TokenType.ADD
            (Expr.Literal Value.nil))] 1
          (NewEnvironment (some 0) (NewInterpreter : Interpreter Float)).2
          = Res.panic
              (Panic.str "the binary operator '+' can only be used for numbers or strings") j ∧
        j.env = 0) :=
  ⟨⟨_, rfl, (execBlock_restores_env 2 [Stmt.Var "a" none] 1
      (NewEnvironment (some 0) (NewInterpreter : Interpreter Float)).2 _ rfl).1⟩,
   ⟨_, rfl, (execBlock_restores_env 2 [Stmt.Return none] 1
      (NewEnvironment (some 0) (NewInterpreter : Interpreter Float)).2 _ rfl).1⟩,
   ⟨_, rfl, (execBlock_restores_env 3
      [Stmt.Expression (Expr.Binary (Expr.Literal Value.nil) TokenType.ADD
        (Expr.Literal Value.nil))] 1
      (NewEnvironment (some 0) (NewInterpreter : Interpreter Float)).2 _ rfl).1⟩⟩

/-- C13. A `return` statement never completes normally: without an expression
it panics with the `Return` signal carrying nil, and with an expression that
evaluates to `v` it panics with the `Return` signal carrying `v`.  The signal
is recognised as a `Return`, and the values the evaluator panics with for a
type mismatch, a callee that is not callable and an arity mismatch (strings)
are not. -/
theorem return_raises_signal [Host F] (fuel : Nat) (i : Interpreter F) :
    exec (fuel + 1) (Stmt.Return none) i = Res.panic (Panic.Return Value.nil) i ∧
    (∀ (e : Expr F) (v : Value F) (i1 : Interpreter F), eval fuel e i = Res.ok v i1 →
      exec (fuel + 1) (Stmt.Return (some e)) i = Res.panic (Panic.Return v) i1) ∧
    (∀ (n : Nat) (value : Option (Expr F)) (u : Unit) (j : Interpreter F),
      exec n (Stmt.Return value) i ≠ Res.ok u j) ∧
    (∀ v : Value F, (Panic.Return v).isReturn = true) ∧
    (Panic.str "the binary operator '+' can only be used for numbers or strings" :
      Panic F).isReturn = false ∧
    (Panic.str "can only call functions and classes" : Panic F).isReturn = false ∧
    (∀ arity count : Nat,
      (Panic.str ("expected " ++ Itoa arity ++ " arguments" ++ " but got " ++ Itoa count) :
        Panic F).isReturn = false) ∧
    (∀ (v : Value F) (msg : String), (Panic.Return v : Panic F) ≠ Panic.str msg) := by
  refine ⟨rfl, ?_, ?_, fun _ => rfl, rfl, rfl, fun _ _ => rfl, ?_⟩
  · intro e v i1 he
    simp [exec, VisitorReturnStmt, he, Res.bind]
  · intro n value u j
    cases n with
    | zero => simp [exec]
    | succ n =>
      cases value with
      | none => simp [exec, VisitorReturnStmt]
      | some e =>
        cases he : eval n e i <;> simp [exec, VisitorReturnStmt, he, Res.bind]
  · intro v msg h
    cases h

/-- C15. When the operands evaluate to `a` and then `b`, whatever their kinds,
`==` evaluates to the Boolean `isEqual a b` and `!=` to its negation: neither
fails, and exactly one of the two is true. -/
theorem equality_operators_never_fail [Host F] (fuel : Nat) (l r : Expr F) (a b : Value F)
    (i i1 i2 : Interpreter F)
    (hl : eval fuel l i = Res.ok a i1) (hr : eval fuel r i1 = Res.ok b i2) :
    eval (fuel + 1) (Expr.Binary l TokenType.EQL r) i = Res.ok (Value.bool (isEqual a b)) i2 ∧
    eval (fuel + 1) (Expr.Binary l TokenType.NEQ r) i = Res.ok (Value.bool (!isEqual a b)) i2 ∧
    (isEqual a b != !isEqual a b) = true := by
  refine ⟨?_, ?_, ?_⟩
  · simp [eval, VisitorBinaryExpr, hl, hr, Res.bind]
  · simp [eval, VisitorBinaryExpr, hl, hr, Res.bind]
  · cases isEqual a b <;> rfl

/-- Witness of C15: `nil == "x"` is false and `nil != "x"` is true. -/
theorem equality_operators_never_fail_witness :
    eval 2 (Expr.Binary (Expr.Literal Value.nil) TokenType.EQL (Expr.Literal (Value.str "x")))
        (NewInterpreter : Interpreter Float)
      = Res.ok (Value.bool false) NewInterpreter ∧
    eval 2 (Expr.Binary (Expr.Literal Value.nil) TokenType.NEQ (Expr.Literal (Value.str "x")))
        (NewInterpreter : Interpreter Float)
      = Res.ok (Value.bool true) NewInterpreter :=
  ⟨(equality_operators_never_fail 1 (Expr.Literal Value.nil) (Expr.Literal (Value.str "x"))
      Value.nil (Value.str "x") NewInterpreter NewInterpreter NewInterpreter rfl rfl).1,
   (equality_operators_never_fail 1 (Expr.Literal Value.nil) (Expr.Literal (Value.str "x"))
      Value.nil (Value.str "x") NewInterpreter NewInterpreter NewInterpreter rfl rfl).2.1⟩

/-- C16. When the operand evaluates to `v`, whatever its kind, unary `!`
evaluates to the Boolean negation of `isTruthy v` and does not fail; hence
`!!` of the operand evaluates to the Boolean `isTruthy v`. -/
theorem unary_not_never_fails [Host F] (fuel : Nat) (r : Expr F) (v : Value F)
    (i i1 : Interpreter F) (hr : eval fuel r i = Res.ok v i1) :
    eval (fuel + 1) (Expr.Unary TokenType.NOT r) i = Res.ok (Value.bool (!isTruthy v)) i1 ∧
    eval (fuel + 2) (Expr.Unary TokenType.NOT (Expr.Unary TokenType.NOT r)) i
      = Res.ok (Value.bool (isTruthy v)) i1 := by
  have h1 : eval (fuel + 1) (Expr.Unary TokenType.NOT r) i
      = Res.ok (Value.bool (!isTruthy v)) i1 := by
    simp [eval, VisitorUnaryExpr, hr, Res.bind]
  refine ⟨h1, ?_⟩
  have h2 : eval (fuel + 1 + 1) (Expr.Unary TokenType.NOT (Expr.Unary TokenType.NOT r)) i
      = Res.ok (Value.bool (!isTruthy (Value.bool (!isTruthy v) : Value F))) i1 := by
    simp [eval, VisitorUnaryExpr, hr, Res.bind]
  rw [h2]
  cases hv : isTruthy v <;> simp [isTruthy, Value.isNil]

/-- Witness of C16: `!""` is false and `!!""` is true; `!nil` is true and
`!!nil` is false. -/
theorem unary_not_never_fails_witness :
    (eval 2 (Expr.Unary TokenType.NOT (Expr.Literal (Value.str "")))
        (NewInterpreter : Interpreter Float) = Res.ok (Value.bool false) NewInterpreter ∧
     eval 3 (Expr.Unary TokenType.NOT (Expr.Unary TokenType.NOT (Expr.Literal (Value.str ""))))
        (NewInterpreter : Interpreter Float) = Res.ok (Value.bool true) NewInterpreter) ∧
    (eval 2 (Expr.Unary TokenType.NOT (Expr.Literal Value.nil))
        (NewInterpreter : Interpreter Float) = Res.ok (Value.bool true) NewInterpreter ∧
     eval 3 (Expr.Unary TokenType.NOT (Expr.Unary TokenType.NOT (Expr.Literal Value.nil)))
        (NewInterpreter : Interpreter Float) = Res.ok (Value.bool false) NewInterpreter) :=
  ⟨unary_not_never_fails 1 (Expr.Literal (Value.str "")) (Value.str "") NewInterpreter
      NewInterpreter rfl,
   unary_not_never_fails 1 (Expr.Literal Value.nil) Value.nil NewInterpreter
      NewInterpreter rfl⟩

/-- C18. When the statements `pre` execute to the state `i1` and the next
top-level statement `s` panics there with `p`, leaving the state `j`,
`Interpret` on `pre`, `s` and any following statements panics with the same
`p` in the same state `j`: the error reaches the caller, after the effects of
`pre`, and the following statements are not executed. -/
theorem Interpret_propagates_error [Host F] (fuel : Nat) (pre post : List (Stmt F))
    (s : Stmt F) (p : Panic F) (i i1 j : Interpreter F)
    (hpre : Interpret fuel pre i = Res.ok () i1) (hs : exec fuel s i1 = Res.panic p j) :
    Interpret fuel (pre ++ s :: post) i = Res.panic p j :=
  execStatements_append_panic (exec fuel) s post p pre i i1 j hpre hs

/-- Witness of C18: `print "a"; nil + nil; print "b";` panics with the type
error after `a` was printed, and `b` is not printed. -/
theorem Interpret_propagates_error_witness :
    Interpret 3
        ([Stmt.Print (Expr.Literal (Value.str "a"))] ++
          Stmt.Expression (Expr.Binary (Expr.Literal Value.nil) TokenType.ADD
            (Expr.Literal Value.nil)) ::
          [Stmt.Print (Expr.Literal (Value.str "b"))])
        (NewInterpreter : Interpreter Float)
      = Res.panic (Panic.str "the binary operator '+' can only be used for numbers or strings")
          { (NewInterpreter : Interpreter Float) with out := ["a"] } :=
  Interpret_propagates_error 3 [Stmt.Print (Expr.Literal (Value.str "a"))]
    [Stmt.Print (Expr.Literal (Value.str "b"))]
    (Stmt.Expression (Expr.Binary (Expr.Literal Value.nil) TokenType.ADD (Expr.Literal Value.nil)))
    (Panic.str "the binary operator '+' can only be used for numbers or strings")
    NewInterpreter { (NewInterpreter : Interpreter Float) with out := ["a"] }
    { (NewInterpreter : Interpreter Float) with out := ["a"] } rfl rfl

/-- C14. Executing a function declaration in a state whose current scope is
`i.env` completes; it creates one function object, whose captured scope is the
address `i.env` itself; it binds the name to that object in the scope at
`i.env`, leaves the other names of that scope and every other scope as they
were, creates no scope, and leaves `i.env` current. -/
theorem function_declaration_binds [Host F] (fuel : Nat) (name : String) (params : List String)
    (body : List (Stmt F)) (i : Interpreter F) (e : environment F)
    (he : i.envs[i.env]? = some e) :
    ∃ j, exec (fuel + 1) (Stmt.Function name params body) i = Res.ok () j ∧
      j.env = i.env ∧
      j.funs = i.funs ++ [{ name := name, params := params, body := body, closure := i.env }] ∧
      environment_get j.env name j = Res.ok (Value.fn i.funs.length) j ∧
      j.envs = i.envs.set i.env
        { e with values := mapSet e.values name (Value.fn i.funs.length) } ∧
      (∀ y : String, y ≠ name →
        (mapSet e.values name (Value.fn i.funs.length)).lookup y = e.values.lookup y) ∧
      (∀ p : Nat, p ≠ i.env → j.envs[p]? = i.envs[p]?) ∧
      j.envs.length = i.envs.length := by
  have hlt : i.env < i.envs.length := (List.getElem?_eq_some.mp he).1
  refine ⟨{ i with
      funs := i.funs ++ [{ name := name, params := params, body := body, closure := i.env }]
      envs := i.envs.set i.env
        { e with values := mapSet e.values name (Value.fn i.funs.length) } },
    ?_, rfl, rfl, ?_, rfl, ?_, ?_, ?_⟩
  · simp [exec, VisitorFunctionStmt, NewLoxFunction, environment_def, he]
  · apply environment_get_of_lookup _ _ _ _
      { e with values := mapSet e.values name (Value.fn i.funs.length) }
    · simp [List.getElem?_set_self, hlt]
    · exact lookup_mapSet_self name _ e.values
  · intro y hy
    exact lookup_mapSet_other name y _ hy e.values
  · intro p hp
    simp [List.getElem?_set, Ne.symm hp]
  · simp

/-- Witness of C14: `fun f(a) {}` declared in a fresh interpreter. -/
theorem function_declaration_binds_witness :
    ∃ j, exec 1 (Stmt.Function "f" ["a"] []) (NewInterpreter : Interpreter Float) = Res.ok () j ∧
      j.env = 0 ∧
      j.funs = [{ name := "f", params := ["a"], body := [], closure := 0 }] ∧
      environment_get j.env "f" j = Res.ok (Value.fn 0) j :=
  match function_declaration_binds 0 "f" ["a"] [] (NewInterpreter : Interpreter Float)
      { values := [("date", Value.date), ("clock", Value.clock)], enclosing := none } rfl with
  | ⟨j, h1, h2, h3, h4, _⟩ => ⟨j, h1, h2, h3, h4⟩

/-- C17. When `e` evaluates to `v`, leaving the state `i1`, and `x` is bound in
the scope `p` of the chain of the current scope, the assignment `x = e`
evaluates to `v`; its final state is the one `assign` produces from `i1`,
in which `x` reads as `v` and no scope was created.  When the right-hand side
panics, the assignment panics likewise in the state the right-hand side left:
nothing is assigned. -/
theorem assign_returns_value [Host F] (fuel : Nat) (x : String) (e : Expr F) (v : Value F)
    (i i1 : Interpreter F) (p : Nat)
    (he : eval fuel e i = Res.ok v i1)
    (hx : resolve i1.envs x i1.envs.length i1.env = Resolved.found p) :
    eval (fuel + 1) (Expr.Assign x e) i = Res.ok v (environment_def p x v i1) ∧
    environment_asg i1.env x v i1 = Res.ok () (environment_def p x v i1) ∧
    environment_get i1.env x (environment_def p x v i1)
      = Res.ok v (environment_def p x v i1) ∧
    (environment_def p x v i1).envs.length = i1.envs.length ∧
    (environment_def p x v i1).env = i1.env ∧
    (∀ (e2 : Expr F) (q : Panic F) (j : Interpreter F), eval fuel e2 i = Res.panic q j →
      eval (fuel + 1) (Expr.Assign x e2) i = Res.panic q j) := by
  obtain ⟨sc, hsc, _⟩ := resolve_found_spec i1.envs x p _ _ hx
  have hlt : p < i1.envs.length := (List.getElem?_eq_some.mp hsc).1
  have hdef := environment_def_of_getElem p x v i1 sc hsc
  refine ⟨?_, ?_, ?_, ?_, ?_, ?_⟩
  · simp [eval, VisitorAssignExpr, he, Res.bind, environment_asg, hx]
  · simp [environment_asg, hx]
  · rw [hdef]
    have hres := resolve_set i1.envs x v p sc hsc _ _ hx
    unfold environment_get
    simp [hres, List.getElem?_set_self, hlt, lookup_mapSet_self]
  · rw [hdef]; simp
  · rw [hdef]
  · intro e2 q j h2
    simp [eval, VisitorAssignExpr, h2, Res.bind]

/-- Witness of C17: `clock = "s"` in a fresh interpreter, where `clock` is
bound in the global scope. -/
theorem assign_returns_value_witness :
    eval 2 (Expr.Assign "clock" (Expr.Literal (Value.str "s")))
        (NewInterpreter : Interpreter Float)
      = Res.ok (Value.str "s")
          { (NewInterpreter : Interpreter Float) with
            envs := [{ values := [("date", Value.date), ("clock", Value.str "s")],
                       enclosing := none }] } :=
  (assign_returns_value 1 "clock" (Expr.Literal (Value.str "s")) (Value.str "s")
    NewInterpreter NewInterpreter 0 rfl rfl).1

/-- C19. When the callee of a call evaluates to `c`, leaving the state `i1`,
the arguments are evaluated next, from left to right, before any check: a
callee that is no callable, or a wrong number of arguments, is reported in the
state `i2` that the evaluation of all the arguments left, and a panic of an
argument expression, raised after the arguments before it were evaluated, is
the outcome of the call whatever `c` is. -/
theorem call_evaluates_before_checks [Host F] (fuel : Nat) (callee : Expr F) (c : Value F)
    (i i1 : Interpreter F) (hc : eval fuel callee i = Res.ok c i1) :
    (∀ (arguments : List (Expr F)) (vs : List (Value F)) (i2 : Interpreter F),
      argsEvalTo (eval fuel) arguments vs i1 i2 → c.isLoxCallable = false →
      eval (fuel + 1) (Expr.Call callee arguments) i
        = Res.panic (Panic.str "can only call functions and classes") i2) ∧
    (∀ (arguments : List (Expr F)) (vs : List (Value F)) (i2 : Interpreter F) (arity : Nat),
      argsEvalTo (eval fuel) arguments vs i1 i2 → LoxCallable_arity i2 c = some arity →
      arguments.length ≠ arity →
      eval (fuel + 1) (Expr.Call callee arguments) i
        = Res.panic (Panic.str ("expected " ++ Itoa arity ++ " arguments but got " ++
            Itoa arguments.length)) i2) ∧
    (∀ (pre : List (Expr F)) (a : Expr F) (post : List (Expr F)) (vs : List (Value F))
        (i2 j : Interpreter F) (p : Panic F),
      argsEvalTo (eval fuel) pre vs i1 i2 → eval fuel a i2 = Res.panic p j →
      eval (fuel + 1) (Expr.Call callee (pre ++ a :: post)) i = Res.panic p j) := by
  refine ⟨?_, ?_, ?_⟩
  · intro arguments vs i2 ha hk
    have hargs := evalArguments_of_argsEvalTo (eval fuel) arguments vs [] i1 i2 ha
    simp [eval, VisitorCallExpr, hc, hargs, Res.bind, hk]
  · intro arguments vs i2 arity ha harity hne
    have hlen := argsEvalTo_length (eval fuel) arguments vs i1 i2 ha
    have hargs := evalArguments_of_argsEvalTo (eval fuel) arguments vs [] i1 i2 ha
    have hcall := isLoxCallable_of_arity i2 c arity harity
    simp [eval, VisitorCallExpr, hc, hargs, Res.bind, hcall, harity, hlen, hne,
      String.append_assoc]
  · intro pre a post vs i2 j p ha hp
    have hargs := evalArguments_panic (eval fuel) a post p pre vs [] i1 i2 j ha hp
    simp [eval, VisitorCallExpr, hc, hargs, Res.bind]

/-- Witness of C19: in `nil(clock = "s")` and in `clock(clock = "s")` the
argument has rebound `clock` when the call is refused; in `nil(nil + nil, 1)`
the type error of the first argument is reported. -/
theorem call_evaluates_before_checks_witness :
    eval 3 (Expr.Call (Expr.Literal Value.nil)
          [Expr.Assign "clock" (Expr.Literal (Value.str "s"))])
        (NewInterpreter : Interpreter Float)
      = Res.panic (Panic.str "can only call functions and classes")
          { (NewInterpreter : Interpreter Float) with
            envs := [{ values := [("date", Value.date), ("clock", Value.str "s")],
                       enclosing := none }] } ∧
    eval 3 (Expr.Call (Expr.Variable "clock")
          [Expr.Assign "clock" (Expr.Literal (Value.str "s"))])
        (NewInterpreter : Interpreter Float)
      = Res.panic (Panic.str "expected 0 arguments but got 1")
          { (NewInterpreter : Interpreter Float) with
            envs := [{ values := [("date", Value.date), ("clock", Value.str "s")],
                       enclosing := none }] } ∧
    eval 3 (Expr.Call (Expr.Literal Value.nil)
          ([] ++ Expr.Binary (Expr.Literal Value.nil) TokenType.ADD (Expr.Literal Value.nil) ::
            [Expr.Literal (Value.num 1)]))
        (NewInterpreter : Interpreter Float)
      = Res.panic (Panic.str "the binary operator '+' can only be used for numbers or strings")
          NewInterpreter :=
  ⟨(call_evaluates_before_checks 2 (Expr.Literal Value.nil) Value.nil NewInterpreter
      NewInterpreter rfl).1 [Expr.Assign "clock" (Expr.Literal (Value.str "s"))]
      [Value.str "s"] _ ⟨_, rfl, rfl⟩ rfl,
   (call_evaluates_before_checks 2 (Expr.Variable "clock") Value.clock NewInterpreter
      NewInterpreter rfl).2.1 [Expr.Assign "clock" (Expr.Literal (Value.str "s"))]
      [Value.str "s"] _ 0 ⟨_, rfl, rfl⟩ rfl (by decide),
   (call_evaluates_before_checks 2 (Expr.Literal Value.nil) Value.nil NewInterpreter
      NewInterpreter rfl).2.2 [] _ [Expr.Literal (Value.num 1)] [] NewInterpreter
      NewInterpreter _ rfl rfl⟩

/-- C12. In a state whose current scope `i.env` exists, the program
`var x = v; { var x = w; print x; } print x;` completes, prints `w` and then
`v`, leaves `i.env` current, and afterwards `x` reads as `v` in the current
scope: the declaration in the block shadowed the outer binding and did not
overwrite it. -/
theorem block_shadowing [Host F] (x : String) (v w : Value F) (i : Interpreter F)
    (e : environment F) (he : i.envs[i.env]? = some e) :
    ∃ j, Interpret 4
          [Stmt.Var x (some (Expr.Literal v)),
           Stmt.Block [Stmt.Var x (some (Expr.Literal w)), Stmt.Print (Expr.Variable x)],
           Stmt.Print (Expr.Variable x)] i = Res.ok () j ∧
      j.out = i.out ++ [Println i w, Println i v] ∧
      j.env = i.env ∧
      environment_get j.env x j = Res.ok v j := by
  have hlt : i.env < i.envs.length := (List.getElem?_eq_some.mp he).1
  let e1 : environment F := { e with values := mapSet e.values x v }
  let blk : environment F := { values := [(x, w)], enclosing := some i.env }
  have hget1 : ∀ (ev : Nat) (o : List String),
      environment_get i.envs.length x
        ({ i with env := ev, envs := i.envs.set i.env e1 ++ [blk], out := o } : Interpreter F)
      = Res.ok w { i with env := ev, envs := i.envs.set i.env e1 ++ [blk], out := o } := by
    intro ev o
    apply environment_get_of_lookup _ _ _ _ blk
    · simp [List.getElem?_append_right]
    · simp [blk, List.lookup]
  have hget2 : ∀ (o : List String),
      environment_get i.env x
        ({ i with envs := i.envs.set i.env e1 ++ [blk], out := o } : Interpreter F)
      = Res.ok v { i with envs := i.envs.set i.env e1 ++ [blk], out := o } := by
    intro o
    apply environment_get_of_lookup _ _ _ _ e1
    · simp [List.getElem?_append_left, hlt, List.getElem?_set_self]
    · exact lookup_mapSet_self x v e.values
  refine ⟨{ i with envs := i.envs.set i.env e1 ++ [blk],
                   out := i.out ++ [Println i w] ++ [Println i v] }, ?_, ?_, rfl, hget2 _⟩
  · simp [Interpret, execStatements, exec, eval, VisitorVarStmt, VisitorLiteralExpr,
      VisitorBlockStmt, VisitorPrintStmt, VisitorVariableExpr, Res.bind, NewEnvironment,
      execBlock, environment_def, he, hlt, List.getElem?_append_right, List.set_append_right,
      mapSet, hget1, hget2, e1, blk]
    exact ⟨Println_congr _ _ _ rfl, Println_congr _ _ _ rfl⟩
  · simp

/-- Witness of C12: `var a = 1; { var a = 2; print a; } print a;` in a fresh
interpreter prints the text of 2 and then the text of 1. -/
theorem block_shadowing_witness :
    ∃ j, Interpret 4
          [Stmt.Var "a" (some (Expr.Literal (Value.num 1))),
           Stmt.Block [Stmt.Var "a" (some (Expr.Literal (Value.num 2))),
             Stmt.Print (Expr.Variable "a")],
           Stmt.Print (Expr.Variable "a")] (NewInterpreter : Interpreter Float) = Res.ok () j ∧
      j.out = [Host.fmt (2 : Float), Host.fmt (1 : Float)] ∧
      j.env = 0 ∧
      environment_get j.env "a" j = Res.ok (Value.num 1) j :=
  block_shadowing "a" (Value.num 1) (Value.num 2) (NewInterpreter : Interpreter Float)
    { values := [("date", Value.date), ("clock", Value.clock)], enclosing := none } rfl

/-- C20. `isEqual` is symmetric on the Go host: `isEqual a b = isEqual b a`
for all values, two Numbers included, although only the first argument is
tested for nil before the comparison of the host. -/
theorem isEqual_symm_float64 (a b : Value Float64) : isEqual a b = isEqual b a :=
  isEqual_symm_of_host a b (fun x y _ _ => float64_eq_symm x y)

end Mlox
